import Mathlib

/-!
Verification development for the consignment-consolidation repository.

The repository contains a React application (src/consolidation/src/App.jsx,
src/consolidation/src/utils.js) together with earlier iterations of the same
file (src/unnamed/part_000 … part_003).  This file gives a shallow embedding
of the data model and the algorithms the specification talks about:

* tote-field parsing (`parseTotes` in App.jsx, `parseDenominator` in utils.js);
* row enrichment and section extraction (`buildConsignmentsAndSections`);
* the current grouped consolidation planner of App.jsx
  (`generateConsolidationSuggestions`, namespace `App`);
* the per-shipment planner of part_001 (`suggestSectionMoves`,
  namespace `PartOne`);
* the per-type planner of part_002/part_000 (`generateTypeSuggestions`,
  namespace `PartTwo`);
* the route / sub-route assignment model and its drag-and-drop operations
  (`removeSectionFromRoutes`, `handleDropOnFrom`, `handleDropOnTo`).

JavaScript numbers produced by `parseInt` are modelled as `Int`; JavaScript's
stable `Array.prototype.sort` with comparator `(a, b) => key a - key b` is
modelled by the stable insertion sort `sortByKey`.
-/

/-- Splitting a character list on a separator, accumulating the current
chunk; models JavaScript `String.prototype.split` with a one-character
separator (`"".split(c)` gives `[""]`, a trailing separator yields a trailing
empty chunk). -/
def splitCharsAux (sep : Char) : List Char → List Char → List (List Char)
  | [], cur => [cur.reverse]
  | c :: cs, cur =>
    if c = sep then cur.reverse :: splitCharsAux sep cs []
    else splitCharsAux sep cs (c :: cur)

/-- JavaScript `s.split(sep)` for a one-character separator. -/
def jsSplit (sep : Char) (s : String) : List String :=
  (splitCharsAux sep s.toList []).map (fun cs => String.mk cs)

/-- JavaScript `parts[parts.length - 1]` (with `""` for an empty array, which
cannot occur for `split` results). -/
def jsLast : List String → String
  | [] => ""
  | [x] => x
  | _ :: x :: xs => jsLast (x :: xs)

/-- Model of JavaScript `parseInt(s, 10)`: skip leading whitespace, read an
optional sign, then the longest leading run of decimal digits; `none` models
`NaN` (no digits found).  Trailing garbage is ignored, as in JavaScript. -/
def jsParseInt (s : String) : Option Int :=
  let cs := s.toList.dropWhile (fun c => c.isWhitespace)
  let signAndRest : Int × List Char :=
    match cs with
    | '-' :: r => (-1, r)
    | '+' :: r => (1, r)
    | r => (1, r)
  let digits := signAndRest.2.takeWhile (fun c => c.isDigit)
  if digits.isEmpty then none
  else some (signAndRest.1 * (digits.foldl (fun acc c => acc * 10 + (c.toNat - '0'.toNat)) 0 : Nat))

/-- `parseTotes` from App.jsx (identical in part_000 … part_003):
`parts = String(value).split("/"); denom = parts[1] ?? parts[0];
n = parseInt(denom, 10); Number.isNaN(n) ? 0 : n`, with `!value` (the empty
string) short-circuiting to 0. -/
def parseTotes (value : String) : Int :=
  if value = "" then 0
  else
    let parts := jsSplit '/' value
    let denom :=
      match parts with
      | _ :: d :: _ => d
      | p :: [] => p
      | [] => ""
    (jsParseInt denom).getD 0

/-- `parseDenominator` from src/consolidation/src/utils.js: takes
`parts[parts.length - 1]`, i.e. the LAST `/`-separated part. -/
def parseDenominator (value : String) : Int :=
  if value = "" then 0
  else
    let parts := jsSplit '/' value
    (jsParseInt (jsLast parts)).getD 0

/-- Modelled from the spec (for comparison with the code): "split on `/`; if a
second part exists, parse it as the quantity, else parse the whole string; a
non-numeric or empty result yields 0". -/
def parseFieldSpec (value : String) : Int :=
  match jsSplit '/' value with
  | _ :: d :: _ => (jsParseInt d).getD 0
  | p :: [] => (jsParseInt p).getD 0
  | [] => 0

/-- Stable insertion step: `x` goes before the first element whose key is not
strictly smaller.  Together with `sortByKey` this models JavaScript's stable
`sort((a, b) => key a - key b)`. -/
def insertAsc {α : Type} (key : α → Int) (x : α) : List α → List α
  | [] => [x]
  | y :: ys => if key y < key x then y :: insertAsc key x ys else x :: y :: ys

/-- Stable ascending sort by an integer key (model of JavaScript
`arr.sort((a, b) => key a - key b)`). -/
def sortByKey {α : Type} (key : α → Int) (l : List α) : List α :=
  l.foldr (insertAsc key) []

/-- Enumeration with indices starting at `n`, modelling JavaScript array
indices. -/
def enumFrom {α : Type} : Nat → List α → List (Nat × α)
  | _, [] => []
  | n, x :: xs => (n, x) :: enumFrom (n + 1) xs

/-- A row of the parsed CSV after the upstream "non-empty Consignment" filter;
only the fields the core reads are modelled. -/
structure Row where
  shipment : String
  consignment : String
  ambient : String
  chilled : String
  freezer : String
deriving DecidableEq, Repr

/-- A section record as built by `buildConsignmentsAndSections`
(`{ sectionId, consignment, type, totes }`); `type` is the literal string
"ambient" or "chill", exactly as in the source. -/
structure Sect where
  sectionId : String
  consignment : String
  type : String
  totes : Int
deriving DecidableEq, Repr

/-- A consignment summary (`consMap[key]` in the source). -/
structure Summary where
  id : String
  shipment : String
  consignment : String
  ambientTotes : Int
  chillTotes : Int
deriving DecidableEq, Repr

namespace App

/-- The per-row section contributions of `buildConsignmentsAndSections` in the
current App.jsx: an ambient section when `ambientTotes > 0` (id
`cons + "_amb_" + idx`) and a chill section when `chillTotal > 0` (id
`cons + "_chi_" + idx`). -/
def rowSections (idx : Nat) (cons : String) (amb chi : Int) : List Sect :=
  (if amb > 0 then [⟨cons ++ "_amb_" ++ toString idx, cons, "ambient", amb⟩] else []) ++
  (if chi > 0 then [⟨cons ++ "_chi_" ++ toString idx, cons, "chill", chi⟩] else [])

/-- `consMap[key]` update: on the first row for a key the entry is created
with zero totals and then incremented, which nets to the row's totals;
later rows add to the existing entry (insertion order is preserved, as for
JavaScript object keys). -/
def addSummary : List Summary → String → String → Int → Int → List Summary
  | [], sh, cons, amb, chi => [⟨sh ++ "::" ++ cons, sh, cons, amb, chi⟩]
  | s :: rest, sh, cons, amb, chi =>
    if s.id = sh ++ "::" ++ cons then
      { s with ambientTotes := s.ambientTotes + amb, chillTotes := s.chillTotes + chi } :: rest
    else
      s :: addSummary rest sh cons amb chi

/-- `sectionsByShipment[shipment]` update: create the (possibly empty) entry on
first sight of a shipment, then push the row's sections; key order is
JavaScript object insertion order. -/
def addSections : List (String × List Sect) → String → List Sect → List (String × List Sect)
  | [], sh, new => [(sh, new)]
  | (k, v) :: rest, sh, new =>
    if k = sh then (k, v ++ new) :: rest
    else (k, v) :: addSections rest sh new

/-- Property access `sectionsByShipment[sh]`, `[]` when absent. -/
def lookupSections : List (String × List Sect) → String → List Sect
  | [], _ => []
  | (k, v) :: rest, sh => if k = sh then v else lookupSections rest sh

/-- One iteration of the `data.forEach((row, idx) => …)` body of
`buildConsignmentsAndSections`. -/
def buildStep (idx : Nat) (row : Row) (acc : List Summary × List (String × List Sect)) :
    List Summary × List (String × List Sect) :=
  let shipment := row.shipment
  let cons := row.consignment
  let ambientTotes := parseTotes row.ambient
  let chillTotal := parseTotes row.chilled + parseTotes row.freezer
  (addSummary acc.1 shipment cons ambientTotes chillTotal,
   addSections acc.2 shipment (rowSections idx cons ambientTotes chillTotal))

/-- The `forEach` loop with its running index. -/
def buildGo : Nat → List Row → (List Summary × List (String × List Sect)) →
    List Summary × List (String × List Sect)
  | _, [], acc => acc
  | idx, r :: rs, acc => buildGo (idx + 1) rs (buildStep idx r acc)

/-- `buildConsignmentsAndSections` from the current App.jsx; `.1` is
`consignmentSummaries` (= `Object.values(consMap)`), `.2` is
`sectionsByShipment`. -/
def buildConsignmentsAndSections (data : List Row) :
    List Summary × List (String × List Sect) :=
  buildGo 0 data ([], [])

end App

/-- Modelled from the spec (amended form of C5, for comparison with the code):
the sections a shipment receives are exactly the per-row contributions of the
rows belonging to it, in row order, with no aggregation across rows. -/
def perRowSections : Nat → List Row → String → List Sect
  | _, [], _ => []
  | idx, r :: rs, sh =>
    (if r.shipment = sh then
      App.rowSections idx r.consignment (parseTotes r.ambient)
        (parseTotes r.chilled + parseTotes r.freezer)
     else []) ++ perRowSections (idx + 1) rs sh

namespace App

/-! ### The current grouped consolidation planner (App.jsx, "UPDATED LOGIC") -/

/-- A section in the planner's simulation array: the JavaScript object
`{ ...section, simulatedTotes: section.totes, id: section.sectionId,
isSource: false }` (the spread copy of `sectionId` is dropped here since the
code only ever reads `id`). -/
structure SimSection where
  id : String
  consignment : String
  type : String
  totes : Int
  simulatedTotes : Int
  isSource : Bool
deriving DecidableEq, Repr

def toSim (s : Sect) : SimSection :=
  ⟨s.sectionId, s.consignment, s.type, s.totes, s.totes, false⟩

/-- One entry of a grouped suggestion's `moves` list; `newTotal` is absent on
the `"NO AVAILABLE SECTION"` entry. -/
structure SuggMove where
  toConsignment : String
  toType : String
  qty : Int
  newTotal : Option Int
deriving DecidableEq, Repr

/-- A grouped suggestion (`groupedSuggestions.push({ sourceConsignment, …})`). -/
structure GroupedSuggestion where
  sourceConsignment : String
  sourceType : String
  totalQty : Int
  moves : List SuggMove
deriving DecidableEq, Repr

/-- The candidate filter
`allSections.filter(s => !s.isSource && !usedSectionIds.has(s.id)
&& s.simulatedTotes < MAX_CAPACITY)`, with array positions kept so that the
in-place mutation of the chosen target can be modelled by `List.set`.
Note: the filter checks neither `type`, nor `consignment`, nor shipment. -/
def candidatesOf (sections : List SimSection) (used : List String) :
    List (Nat × SimSection) :=
  (enumFrom 0 sections).filter
    (fun p => !p.2.isSource && !(used.contains p.2.id) && decide (p.2.simulatedTotes < 40))

/-- First element attaining the minimal `spaceAvailable`; equals the head of
the stable ascending sort `candidatesThatFitAll.sort((a, b) =>
a.spaceAvailable - b.spaceAvailable)` used in the source. -/
def firstMinBySpace (t0 : Nat × SimSection) (l : List (Nat × SimSection)) :
    Nat × SimSection :=
  l.foldl (fun best cur =>
    if 40 - cur.2.simulatedTotes < 40 - best.2.simulatedTotes then cur else best) t0

/-- First element attaining the maximal `spaceAvailable`; equals the head of
the stable descending sort `candidates.sort((a, b) =>
b.spaceAvailable - a.spaceAvailable)` used in the source. -/
def firstMaxBySpace (t0 : Nat × SimSection) (l : List (Nat × SimSection)) :
    Nat × SimSection :=
  l.foldl (fun best cur =>
    if 40 - cur.2.simulatedTotes > 40 - best.2.simulatedTotes then cur else best) t0

/-- The `while (totesToMove > 0)` loop of the planner.  The loop is driven by
fuel; the caller passes `totesToMove.toNat + 1`, which suffices because every
iteration either stops or moves at least one tote (every candidate has
`simulatedTotes < 40`, so `spaceAvailable ≥ 1`).  Returns the pushed moves and
the final (sections, usedSectionIds) state. -/
def moveLoop : Nat → Int → List SimSection → List String →
    List SuggMove × List SimSection × List String
  | 0, _, sections, used => ([], sections, used)
  | fuel + 1, totesToMove, sections, used =>
    if totesToMove ≤ 0 then ([], sections, used)
    else
      match candidatesOf sections used with
      | [] => ([⟨"NO AVAILABLE SECTION", "N/A", totesToMove, none⟩], sections, used)
      | c0 :: cs =>
        let fitting := (c0 :: cs).filter (fun c => decide (40 - c.2.simulatedTotes ≥ totesToMove))
        let bestTarget :=
          match fitting with
          | [] => firstMaxBySpace c0 cs
          | f0 :: fs => firstMinBySpace f0 fs
        let moveAmount := min totesToMove (40 - bestTarget.2.simulatedTotes)
        let mv : SuggMove :=
          ⟨bestTarget.2.consignment, bestTarget.2.type, moveAmount,
           some (bestTarget.2.simulatedTotes + moveAmount)⟩
        let sections' := sections.set bestTarget.1
          { bestTarget.2 with simulatedTotes := bestTarget.2.simulatedTotes + moveAmount }
        let used' := bestTarget.2.id :: used
        let r := moveLoop fuel (totesToMove - moveAmount) sections' used'
        (mv :: r.1, r.2.1, r.2.2)

/-- The body of `sources.forEach(source => …)`: run the move loop for one
source and push its grouped suggestion. -/
def processSource (st : List SimSection × List String) (source : SimSection) :
    (List SimSection × List String) × GroupedSuggestion :=
  let r := moveLoop (source.totes.toNat + 1) source.totes st.1 st.2
  ((r.2.1, r.2.2), ⟨source.consignment, source.type, source.totes, r.1⟩)

def plannerStep (st : (List SimSection × List String) × List GroupedSuggestion)
    (source : SimSection) :
    (List SimSection × List String) × List GroupedSuggestion :=
  let r := processSource st.1 source
  (r.1, st.2 ++ [r.2])

/-- The flattened simulation array: all positive-tote sections of all
shipments, in `Object.values` order. -/
def allSectionsOf (sectionsByShipment : List (String × List Sect)) : List SimSection :=
  (((sectionsByShipment.map (fun p => p.2)).flatten).filter (fun s => decide (s.totes > 0))).map toSim

/-- The simulation array after the in-place ascending sort
(`allSections.sort((a, b) => a.totes - b.totes)`). -/
def sortedSections (sectionsByShipment : List (String × List Sect)) : List SimSection :=
  sortByKey (fun s => s.totes) (allSectionsOf sectionsByShipment)

/-- How many sources the selection loop picks: it stops at `countToEmpty =
routesNeeded * 2` or at the end of the array, whichever comes first. -/
def sourceCount (sectionsByShipment : List (String × List Sect)) (routesNeeded : Nat) : Nat :=
  min (routesNeeded * 2) (sortedSections sectionsByShipment).length

/-- The selected sources: the `sourceCount` smallest sections, each marked
`isSource := true` (the loop mutates the array elements in place). -/
def plannerSources (sectionsByShipment : List (String × List Sect)) (routesNeeded : Nat) :
    List SimSection :=
  ((sortedSections sectionsByShipment).take (sourceCount sectionsByShipment routesNeeded)).map
    (fun s => { s with isSource := true })

/-- The simulation array after source marking: the marked prefix followed by
the untouched suffix. -/
def markedSections (sectionsByShipment : List (String × List Sect)) (routesNeeded : Nat) :
    List SimSection :=
  plannerSources sectionsByShipment routesNeeded ++
    (sortedSections sectionsByShipment).drop (sourceCount sectionsByShipment routesNeeded)

/-- `generateConsolidationSuggestions` of the current App.jsx: pick the
`routesNeeded * 2` smallest sections (stable ascending sort) as sources, mark
them used (`usedSectionIds` starts with all source ids), then serve each
source from the remaining sections. -/
def generateConsolidationSuggestions (sectionsByShipment : List (String × List Sect))
    (routesNeeded : Nat) : List GroupedSuggestion :=
  if routesNeeded ≤ 0 then []
  else
    ((plannerSources sectionsByShipment routesNeeded).foldl plannerStep
      ((markedSections sectionsByShipment routesNeeded,
        (plannerSources sectionsByShipment routesNeeded).map (fun s => s.id)), [])).2

/-! ### Routes-needed estimator and route creation (handleFileChange) -/

/-- `let needed = 0; if (count > 9) needed = count - 9;` -/
def routesNeededFor (count : Nat) : Nat :=
  if count > 9 then count - 9 else 0

/-- A placed section reference (`{ consignmentId, type, totes }`). -/
structure SlotRef where
  consignmentId : String
  type : String
  totes : Int
deriving DecidableEq, Repr

/-- A sub-route; the source field `from` is called `fromSlot` here (`from` is
reserved in Lean). -/
structure SubRoute where
  id : Nat
  fromSlot : Option SlotRef
  tos : List SlotRef
deriving DecidableEq, Repr

structure Route where
  id : Nat
  subRoutes : List SubRoute
deriving DecidableEq, Repr

/-- `for (let i = 1; i <= needed; i++) newRoutes.push({ id: i, subRoutes:
[{id: 1, from: null, tos: []}, {id: 2, from: null, tos: []}] })` -/
def mkRoutes (needed : Nat) : List Route :=
  (List.range' 1 needed).map (fun i => ⟨i, [⟨1, none, []⟩, ⟨2, none, []⟩]⟩)

/-! ### Route assignment operations (App.jsx drag-and-drop handlers) -/

/-- Does a slot entry match the (consignmentId, type) pair being tested? -/
def refMatches (consId ty : String) (x : SlotRef) : Bool :=
  x.consignmentId == consId && x.type == ty

/-- The per-sub-route part of `removeSectionFromRoutes`. -/
def evictSubRoute (consId ty : String) (sr : SubRoute) : SubRoute :=
  { sr with
    fromSlot :=
      match sr.fromSlot with
      | some f => if refMatches consId ty f then none else some f
      | none => none
    tos := sr.tos.filter (fun x => !refMatches consId ty x) }

/-- `removeSectionFromRoutes`: clear every `from` slot holding the section and
filter it out of every `tos` list, across all routes. -/
def removeSectionFromRoutes (routesState : List Route) (consId ty : String) : List Route :=
  routesState.map (fun r => { r with subRoutes := r.subRoutes.map (evictSubRoute consId ty) })

/-- The shared `updated.map(route => route.id !== routeId ? route : …
subRoutes.map(sr => sr.id !== subRouteId ? sr : f sr))` shape of the two drop
handlers. -/
def updateSubRoutes (routeId subRouteId : Nat) (f : SubRoute → SubRoute)
    (routes : List Route) : List Route :=
  routes.map (fun route =>
    if route.id ≠ routeId then route
    else { route with subRoutes := route.subRoutes.map (fun sr =>
      if sr.id ≠ subRouteId then sr else f sr) })

/-- `handleDropOnFrom`: evict the dragged section everywhere, then overwrite
the target sub-route's `from` slot. -/
def handleDropOnFrom (routes : List Route) (routeId subRouteId : Nat)
    (dragged : SlotRef) : List Route :=
  updateSubRoutes routeId subRouteId (fun sr => { sr with fromSlot := some dragged })
    (removeSectionFromRoutes routes dragged.consignmentId dragged.type)

/-- `handleDropOnTo`: evict the dragged section everywhere, then append it to
the target sub-route's `tos`. -/
def handleDropOnTo (routes : List Route) (routeId subRouteId : Nat)
    (dragged : SlotRef) : List Route :=
  updateSubRoutes routeId subRouteId (fun sr => { sr with tos := sr.tos ++ [dragged] })
    (removeSectionFromRoutes routes dragged.consignmentId dragged.type)

/-- A drag-and-drop placement event (claim C2 quantifies over sequences of
these). -/
inductive Op where
  | dropOnFrom (routeId subRouteId : Nat) (ref : SlotRef)
  | dropOnTo (routeId subRouteId : Nat) (ref : SlotRef)

def applyOp (routes : List Route) : Op → List Route
  | .dropOnFrom rid srid ref => handleDropOnFrom routes rid srid ref
  | .dropOnTo rid srid ref => handleDropOnTo routes rid srid ref

def runOps (routes : List Route) (ops : List Op) : List Route :=
  ops.foldl applyOp routes

/-! ### Occupancy counting for the single-occupancy invariant -/

/-- 1 if the sub-route's `from` slot holds the (consId, ty) section. -/
def fromCount (consId ty : String) (sr : SubRoute) : Nat :=
  match sr.fromSlot with
  | some f => if refMatches consId ty f then 1 else 0
  | none => 0

/-- Number of slots of one sub-route holding the (consId, ty) section. -/
def srCount (consId ty : String) (sr : SubRoute) : Nat :=
  fromCount consId ty sr + (sr.tos.filter (refMatches consId ty)).length

def routeCount (consId ty : String) (r : Route) : Nat :=
  (r.subRoutes.map (srCount consId ty)).sum

/-- Total number of slots (all routes, all sub-routes, `from` plus `tos`)
holding the (consId, ty) section. -/
def refCount (rs : List Route) (consId ty : String) : Nat :=
  (rs.map (routeCount consId ty)).sum

/-- Route ids are pairwise distinct and every route's sub-route ids are
pairwise distinct (true of every route set the app creates). -/
def goodIds (rs : List Route) : Prop :=
  (rs.map (fun r => r.id)).Nodup ∧ ∀ r ∈ rs, (r.subRoutes.map (fun sr => sr.id)).Nodup

end App

namespace PartOne

/-! ### The per-shipment planner of src/unnamed/part_001 (`suggestSectionMoves`) -/

/-- A move suggestion of part_001 (and the spec's `MoveSuggestion`). -/
structure Move where
  shipment : String
  type : String
  fromConsignment : String
  toConsignment : String
  fromSectionTotes : Int
  toSectionTotesBefore : Int
  toSectionTotesAfter : Int
deriving DecidableEq, Repr

/-- The inner `for (j …)` loop conditions, in source order: `j !== i`,
`target.consignment !== source.consignment` (skip), `target.type !==
source.type` (skip), `target.totes + source.totes <= 40` (accept). -/
def targetOk (source : Sect) (i : Nat) (p : Nat × Sect) : Bool :=
  p.1 != i && p.2.consignment != source.consignment && p.2.type == source.type &&
    decide (p.2.totes + source.totes ≤ 40)

/-- The outer `for (i …)` loop over `active`; `fuel` is `active.length`, which
is exactly the number of iterations (the list's length is preserved by
`List.set`).  On a match the target's totes are updated in place and the
source is marked used. -/
def loopSources (shipment : String) : Nat → Nat → List Sect → List String → List Move
  | 0, _, _, _ => []
  | fuel + 1, i, active, used =>
    match active[i]? with
    | none => []
    | some source =>
      if source.sectionId ∈ used then loopSources shipment fuel (i + 1) active used
      else
        match (enumFrom 0 active).find? (targetOk source i) with
        | none => loopSources shipment fuel (i + 1) active used
        | some (j, target) =>
          let combined := target.totes + source.totes
          ⟨shipment, source.type, source.consignment, target.consignment,
            source.totes, target.totes, combined⟩ ::
          loopSources shipment fuel (i + 1)
            (active.set j { target with totes := combined })
            (source.sectionId :: used)

/-- Per-shipment body: return no moves for an empty section list, otherwise
sort a copy ascending by totes (stable) and run the source loop. -/
def shipmentMoves (p : String × List Sect) : List Move :=
  if p.2.isEmpty then []
  else loopSources p.1 p.2.length 0 (sortByKey (fun s => s.totes) p.2) []

/-- `suggestSectionMoves` of part_001: `Object.entries(sectionsByShipment)
.forEach(([shipment, sections]) => …)`, pushing each shipment's moves in
order. -/
def suggestSectionMoves (sectionsByShipment : List (String × List Sect)) : List Move :=
  sectionsByShipment.foldl (fun acc p => acc ++ shipmentMoves p) []

end PartOne

namespace PartTwo

/-! ### The per-type planner of src/unnamed/part_002 (`generateTypeSuggestions`) -/

/-- A section with its shipment attached (`{ ...s, shipment }`). -/
structure SSec where
  sectionId : String
  consignment : String
  type : String
  totes : Int
  shipment : String
deriving DecidableEq, Repr

/-- The `MoveSuggestion` record pushed by part_002/part_000. -/
structure Suggestion where
  shipment : String
  type : String
  fromConsignment : String
  toConsignment : String
  fromSectionTotes : Int
  toSectionTotesBefore : Int
  toSectionTotesAfter : Int
deriving DecidableEq, Repr

/-- `potentialTargets.reduce((best, current) => current.totes > best.totes ?
current : best)`: JavaScript `reduce` without an initial value folds the tail
over the head, keeping the first element attaining the maximum. -/
def reduceMaxTotes (t0 : SSec) (l : List SSec) : SSec :=
  l.foldl (fun best cur => if cur.totes > best.totes then cur else best) t0

/-- The target filter: different consignment, and either it fits in the space
left beside the source (`totes <= maxTotes - source.totes`) or its totes
EQUAL the source's (accepted regardless of capacity). -/
def targetFilter (maxTotes : Int) (src : SSec) (t : SSec) : Bool :=
  t.consignment != src.consignment &&
    (decide (t.totes ≤ maxTotes - src.totes) || t.totes == src.totes)

/-- The `for (i …)` loop over `lowestSections`, threading the shrinking
`tempSections` list (reassigned by filter after each accepted move). -/
def typeGo (maxTotes : Int) (ty : String) : List SSec → List SSec → List Suggestion
  | [], _ => []
  | src :: rest, temp =>
    match temp.filter (targetFilter maxTotes src) with
    | [] => typeGo maxTotes ty rest temp
    | t0 :: ts =>
      let bestTarget := reduceMaxTotes t0 ts
      ⟨src.shipment, ty, src.consignment, bestTarget.consignment,
        src.totes, bestTarget.totes, src.totes + bestTarget.totes⟩ ::
      typeGo maxTotes ty rest
        (temp.filter (fun s =>
          s.consignment != src.consignment && s.consignment != bestTarget.consignment))

/-- `generateTypeSuggestions` of part_002: sort ascending by totes (stable),
take the `routesNeeded * 2` lowest sections as sources, and find each a
target via `targetFilter` / `reduceMaxTotes`. -/
def generateTypeSuggestions (sections : List SSec) (routesNeeded : Nat)
    (maxTotes : Int) (ty : String) : List Suggestion :=
  let tempSections := sortByKey (fun s => s.totes) sections
  let numLowestNeeded := min (routesNeeded * 2) tempSections.length
  let lowestSections := tempSections.take numLowestNeeded
  typeGo maxTotes ty lowestSections tempSections

def toSSec (sh : String) (s : Sect) : SSec :=
  ⟨s.sectionId, s.consignment, s.type, s.totes, sh⟩

/-- `generateConsolidationSuggestions` of part_002: per shipment, split the
positive-tote sections by type and plan each type independently with
`maxPerSection = 40` when `routesNeeded > 0`. -/
def generateConsolidationSuggestions (sectionsByShipment : List (String × List Sect))
    (routesNeeded : Nat) : List Suggestion :=
  sectionsByShipment.foldl (fun acc p =>
    let ambientSections :=
      (p.2.filter (fun s => s.type == "ambient" && decide (s.totes > 0))).map (toSSec p.1)
    let chillSections :=
      (p.2.filter (fun s => s.type == "chill" && decide (s.totes > 0))).map (toSSec p.1)
    let acc1 :=
      if routesNeeded > 0 then
        acc ++ generateTypeSuggestions ambientSections routesNeeded 40 "ambient"
      else acc
    if routesNeeded > 0 then
      acc1 ++ generateTypeSuggestions chillSections routesNeeded 40 "chill"
    else acc1) []

end PartTwo

/-- The (consignment, type) identities of a section list (used to state that
the planner only rearranges totes, never identities). -/
def pairsOf (l : List Sect) : List (String × String) :=
  l.map (fun s => (s.consignment, s.type))

/-- Does a shipment's section list contain a section with the given
consignment and type? -/
def containsPair (secs : List Sect) (c t : String) : Bool :=
  secs.any (fun s => s.consignment == c && s.type == t)

/-! ### Concrete inputs for the counterexamples and witnesses -/

/-- Two ambient sections of 30 totes each in one shipment (the spec's
Scenario B). -/
def scenarioB : List (String × List Sect) :=
  [("S1", [⟨"C1::ambient", "C1", "ambient", 30⟩, ⟨"C2::ambient", "C2", "ambient", 30⟩])]

/-- The ambient sections of `scenarioB` with the shipment attached, as
`generateTypeSuggestions` receives them. -/
def scenarioBAmbient : List PartTwo.SSec :=
  [⟨"C1::ambient", "C1", "ambient", 30, "S1"⟩, ⟨"C2::ambient", "C2", "ambient", 30, "S1"⟩]

/-- One shipment whose consignment C1 has both an ambient and a chill
section; C1's small ambient section and C2's section become the two sources,
leaving C1's own chill section as the only candidate target. -/
def crossTypeInput : List (String × List Sect) :=
  [("S1", [⟨"C1_amb_0", "C1", "ambient", 5⟩, ⟨"C2_amb_1", "C2", "ambient", 6⟩,
           ⟨"C1_chi_2", "C1", "chill", 30⟩])]

/-- Two shipments; the only candidate target for shipment S1's sources lives
in shipment S2. -/
def crossShipmentInput : List (String × List Sect) :=
  [("S1", [⟨"C1_amb_0", "C1", "ambient", 5⟩, ⟨"C3_amb_1", "C3", "ambient", 6⟩]),
   ("S2", [⟨"C2_amb_2", "C2", "ambient", 20⟩])]

/-- Two rows for the same (shipment, consignment) with ambient totes 10 and
5. -/
def twoRowsSameKey : List Row :=
  [⟨"S1", "C1", "0/10", "", ""⟩, ⟨"S1", "C1", "0/5", "", ""⟩]

/-- Both sections become sources, so neither has any qualifying target. -/
def noTargetInput : List (String × List Sect) :=
  [("S1", [⟨"C1_amb_0", "C1", "ambient", 5⟩, ⟨"C2_amb_1", "C2", "ambient", 6⟩])]

/-- A row whose ambient tote field parses to a negative number
(`parseInt("-5", 10) = -5`, which is not `NaN`). -/
def negativeRow : List Row :=
  [⟨"S1", "C1", "-5", "", ""⟩]

/-- Two rows with DISTINCT (shipment, consignment) pairs whose concatenated
keys collide: `"a::b" + "::" + "c"` and `"a" + "::" + "b::c"` are both
`"a::b::c"`, so `consMap` merges them into one summary. -/
def collidingRows : List Row :=
  [⟨"a::b", "c", "0/7", "", ""⟩, ⟨"a", "b::c", "0/4", "", ""⟩]

/-- A well-formed row (all tote fields in the `a/b` digit convention). -/
def witnessRow : List Row :=
  [⟨"S1", "C1", "0/10", "3", ""⟩]

/-- The spec's Scenario A: ambient sections of 10 and 25 totes in one
shipment. -/
def scenarioA : List (String × List Sect) :=
  [("S1", [⟨"a1", "C1", "ambient", 10⟩, ⟨"a2", "C2", "ambient", 25⟩])]

/-- The single move the part_001 planner emits on `scenarioA` (merge C1's 10
ambient totes into C2's 25, reaching 35 ≤ 40). -/
def scenarioAMove : PartOne.Move :=
  ⟨"S1", "ambient", "C1", "C2", 10, 25, 35⟩

/-- The suggestion the part_002 planner emits on `scenarioB`: a 30-into-30
merge with toTotesAfter = 60. -/
def scenarioBMove : PartTwo.Suggestion :=
  ⟨"S1", "ambient", "C1", "C2", 30, 30, 60⟩

/-- The first grouped suggestion the App.jsx planner emits on
`noTargetInput`: the source is not dropped, it gets a "NO AVAILABLE SECTION"
move. -/
def noTargetGroup : App.GroupedSuggestion :=
  ⟨"C1", "ambient", 5, [⟨"NO AVAILABLE SECTION", "N/A", 5, none⟩]⟩

/-! ## General helper lemmas -/

lemma filter_not_filter {α : Type} (p : α → Bool) (l : List α) :
    (l.filter (fun x => !p x)).filter p = [] := by
  rw [List.filter_filter]
  have : ∀ a ∈ l, (p a && !p a) = false := by
    intro a _; cases p a <;> rfl
  induction l with
  | nil => rfl
  | cons a l ih =>
    rw [List.filter_cons]
    have ha : (p a && !p a) = false := by cases p a <;> rfl
    simp only [ha]
    exact ih (fun b hb => this b (List.mem_cons_of_mem a hb))

lemma insertAsc_perm {α : Type} (key : α → Int) (x : α) (l : List α) :
    (insertAsc key x l).Perm (x :: l) := by
  induction l with
  | nil => rfl
  | cons y ys ih =>
    rw [insertAsc]
    by_cases h : key y < key x
    · simp only [h, if_true]
      exact (ih.cons y).trans (List.Perm.swap x y ys)
    · simp only [h, if_false]
      exact List.Perm.refl _

lemma sortByKey_perm {α : Type} (key : α → Int) (l : List α) :
    (sortByKey key l).Perm l := by
  induction l with
  | nil => rfl
  | cons x xs ih =>
    have : sortByKey key (x :: xs) = insertAsc key x (sortByKey key xs) := rfl
    rw [this]
    exact (insertAsc_perm key x (sortByKey key xs)).trans (ih.cons x)

lemma mem_of_mem_sortByKey {α : Type} {key : α → Int} {l : List α} {a : α}
    (h : a ∈ sortByKey key l) : a ∈ l :=
  (sortByKey_perm key l).mem_iff.mp h

lemma enumFrom_getElem? {α : Type} :
    ∀ (l : List α) (n : Nat) (p : Nat × α), p ∈ enumFrom n l →
      n ≤ p.1 ∧ l[p.1 - n]? = some p.2
  | [], n, p, h => by simp [enumFrom] at h
  | x :: xs, n, p, h => by
    rw [enumFrom] at h
    rcases List.mem_cons.mp h with h | h
    · subst h; simp
    · obtain ⟨h1, h2⟩ := enumFrom_getElem? xs (n + 1) p h
      refine ⟨by omega, ?_⟩
      have hsub : p.1 - n = (p.1 - (n + 1)) + 1 := by omega
      rw [hsub]
      simpa using h2

lemma snd_mem_of_mem_enumFrom {α : Type} :
    ∀ (l : List α) (n : Nat) (p : Nat × α), p ∈ enumFrom n l → p.2 ∈ l
  | [], n, p, h => by simp [enumFrom] at h
  | x :: xs, n, p, h => by
    rw [enumFrom] at h
    rcases List.mem_cons.mp h with h | h
    · subst h; exact List.mem_cons_self _ _
    · exact List.mem_cons_of_mem _ (snd_mem_of_mem_enumFrom xs (n + 1) p h)

lemma set_of_getElem? {α : Type} :
    ∀ (l : List α) (j : Nat) (a : α), l[j]? = some a → l.set j a = l
  | [], j, a, h => by simp at h
  | x :: xs, 0, a, h => by
    simp only [List.getElem?_cons_zero, Option.some_inj] at h
    simp [h]
  | x :: xs, j + 1, a, h => by
    simp only [List.getElem?_cons_succ] at h
    simp [set_of_getElem? xs j a h]

lemma sum_indicator_le_one {α : Type} (f : α → Nat) (key : α → Nat) (k : Nat) :
    ∀ l : List α, (l.map key).Nodup → (∀ x ∈ l, f x ≤ if key x = k then 1 else 0) →
      (l.map f).sum ≤ 1
  | [], _, _ => by simp
  | a :: l, hnd, hb => by
    simp only [List.map_cons, List.sum_cons]
    rw [List.map_cons] at hnd
    have hnd' := List.nodup_cons.mp hnd
    by_cases hk : key a = k
    · have h0 : (l.map f).sum = 0 := by
        apply List.sum_eq_zero
        intro v hv
        obtain ⟨y, hy, rfl⟩ := List.mem_map.mp hv
        have hky : key y ≠ k := by
          intro hky
          exact hnd'.1 (by rw [hk, ← hky]; exact List.mem_map_of_mem _ hy)
        have := hb y (List.mem_cons_of_mem a hy)
        simpa [hky] using this
      have ha := hb a (List.mem_cons_self a l)
      rw [if_pos hk] at ha
      omega
    · have ha := hb a (List.mem_cons_self a l)
      rw [if_neg hk] at ha
      have htail := sum_indicator_le_one f key k l hnd'.2
        (fun x hx => hb x (List.mem_cons_of_mem a hx))
      omega

/-! ## C7: tote-field parsing -/

/-- C7 (counterexample): the claim says the quantity is the SECOND
`/`-separated part when one exists, but `parseDenominator` (utils.js) parses
the LAST part: on `"1/2/3"` it returns 3 while the claimed behaviour
(`parseFieldSpec`) returns 2. -/
theorem parseDenominator_not_second_part :
    parseDenominator "1/2/3" = 3 ∧ parseFieldSpec "1/2/3" = 2 ∧ (3 : Int) ≠ 2 :=
  ⟨by decide, by decide, by decide⟩

/-- C7 (amended): `parseTotes` (App.jsx) behaves exactly as the claim states
(second part if present, else the whole string, non-numeric or empty gives 0),
and `parseDenominator` (utils.js) agrees with it on every string with at most
one `/`; on strings with two or more slashes `parseDenominator` parses the
last part instead. -/
theorem parseTotes_second_part_spec (s : String) :
    parseTotes s = parseFieldSpec s ∧
    ((jsSplit '/' s).length ≤ 2 → parseDenominator s = parseTotes s) := by
  constructor
  · by_cases h : s = ""
    · subst h; decide
    · unfold parseTotes parseFieldSpec
      rw [if_neg h]
      cases hp : jsSplit '/' s with
      | nil => simp; decide
      | cons a rest =>
        cases rest with
        | nil => simp
        | cons d rest' => simp
  · intro hlen
    by_cases h : s = ""
    · subst h; decide
    · unfold parseTotes parseDenominator
      rw [if_neg h, if_neg h]
      cases hp : jsSplit '/' s with
      | nil => simp [jsLast]
      | cons a rest =>
        cases rest with
        | nil => simp [jsLast]
        | cons d rest' =>
          cases rest' with
          | nil => simp [jsLast]
          | cons e rest'' => rw [hp] at hlen; simp at hlen

/-- C7 (witness): on the well-formed field `"5/30"` both parsers agree with
the claimed behaviour. -/
theorem parseTotes_second_part_spec_witness :
    parseTotes "5/30" = parseFieldSpec "5/30" ∧ parseDenominator "5/30" = parseTotes "5/30" :=
  ⟨(parseTotes_second_part_spec "5/30").1,
   (parseTotes_second_part_spec "5/30").2 (by decide)⟩

/-! ## C9: routes-needed estimator and route creation -/

/-- C9: `routesNeeded` equals `max(0, distinctConsignmentCount - 9)`; for 12
distinct consignments it is 3, and the route set is then created with 3
routes, each with exactly two sub-routes of ids 1 and 2, an empty `from` slot
and an empty `tos` list. -/
theorem routesNeeded_spec :
    (∀ count : Nat, (App.routesNeededFor count : Int) = max 0 ((count : Int) - 9)) ∧
    App.routesNeededFor 12 = 3 ∧
    App.mkRoutes (App.routesNeededFor 12) =
      [⟨1, [⟨1, none, []⟩, ⟨2, none, []⟩]⟩,
       ⟨2, [⟨1, none, []⟩, ⟨2, none, []⟩]⟩,
       ⟨3, [⟨1, none, []⟩, ⟨2, none, []⟩]⟩] := by
  refine ⟨?_, by decide, by decide⟩
  intro count
  unfold App.routesNeededFor
  by_cases h : count > 9
  · rw [if_pos h, max_eq_right (by omega)]
    omega
  · rw [if_neg h, max_eq_left (by omega)]
    rfl

/-! ## C2: the single-occupancy invariant of the route model -/

namespace App

lemma srCount_evict_self (c t : String) (sr : SubRoute) :
    srCount c t (evictSubRoute c t sr) = 0 := by
  unfold srCount evictSubRoute fromCount
  simp only
  rw [filter_not_filter]
  cases h : sr.fromSlot with
  | none => simp
  | some f =>
    by_cases hf : refMatches c t f
    · simp [hf]
    · simp [hf]

lemma srCount_evict_le (c t c' t' : String) (sr : SubRoute) :
    srCount c' t' (evictSubRoute c t sr) ≤ srCount c' t' sr := by
  unfold srCount evictSubRoute fromCount
  simp only
  have htos : ((sr.tos.filter (fun x => !refMatches c t x)).filter (refMatches c' t')).length
      ≤ (sr.tos.filter (refMatches c' t')).length :=
    ((List.filter_sublist sr.tos).filter _).length_le
  cases h : sr.fromSlot with
  | none => simpa using htos
  | some f =>
    by_cases hf : refMatches c t f
    · simp only [hf, if_true]
      exact le_trans (by simpa using htos) (Nat.le_add_left _ _)
    · simp only [hf, if_false]
      exact Nat.add_le_add_left htos _

lemma routeCount_evict_self (c t : String) (r : Route) :
    routeCount c t { r with subRoutes := r.subRoutes.map (evictSubRoute c t) } = 0 := by
  unfold routeCount
  simp only [List.map_map]
  apply List.sum_eq_zero
  intro x hx
  obtain ⟨sr, _, rfl⟩ := List.mem_map.mp hx
  exact srCount_evict_self c t sr

lemma refCount_remove_self (rs : List Route) (c t : String) :
    refCount (removeSectionFromRoutes rs c t) c t = 0 := by
  unfold refCount removeSectionFromRoutes
  rw [List.map_map]
  apply List.sum_eq_zero
  intro x hx
  obtain ⟨r, _, rfl⟩ := List.mem_map.mp hx
  exact routeCount_evict_self c t r

lemma refCount_remove_le (rs : List Route) (c t c' t' : String) :
    refCount (removeSectionFromRoutes rs c t) c' t' ≤ refCount rs c' t' := by
  unfold refCount removeSectionFromRoutes
  rw [List.map_map]
  apply List.sum_le_sum
  intro r _
  simp only [Function.comp_apply]
  unfold routeCount
  simp only [List.map_map]
  apply List.sum_le_sum
  intro sr _
  simp only [Function.comp_apply]
  exact srCount_evict_le c t c' t' sr

lemma refCount_eq_zero_iff (rs : List Route) (c t : String) :
    refCount rs c t = 0 ↔ ∀ r ∈ rs, routeCount c t r = 0 := by
  unfold refCount
  rw [List.sum_eq_zero_iff]
  constructor
  · intro h r hr
    exact h (routeCount c t r) (List.mem_map_of_mem _ hr)
  · intro h x hx
    obtain ⟨r, hr, rfl⟩ := List.mem_map.mp hx
    exact h r hr

lemma routeCount_eq_zero_iff (r : Route) (c t : String) :
    routeCount c t r = 0 ↔ ∀ sr ∈ r.subRoutes, srCount c t sr = 0 := by
  unfold routeCount
  rw [List.sum_eq_zero_iff]
  constructor
  · intro h sr hsr
    exact h (srCount c t sr) (List.mem_map_of_mem _ hsr)
  · intro h x hx
    obtain ⟨sr, hsr, rfl⟩ := List.mem_map.mp hx
    exact h sr hsr

lemma refCount_update_le_one (rid srid : Nat) (f : SubRoute → SubRoute) (c t : String)
    (rs : List Route)
    (hnd : (rs.map (fun r => r.id)).Nodup)
    (hsub : ∀ r ∈ rs, (r.subRoutes.map (fun sr => sr.id)).Nodup)
    (h0 : refCount rs c t = 0)
    (hf : ∀ sr : SubRoute, srCount c t sr = 0 → srCount c t (f sr) ≤ 1) :
    refCount (updateSubRoutes rid srid f rs) c t ≤ 1 := by
  have hall := (refCount_eq_zero_iff rs c t).mp h0
  unfold refCount updateSubRoutes
  rw [List.map_map]
  apply sum_indicator_le_one _ (fun r => r.id) rid rs hnd
  intro r hr
  by_cases hid : r.id = rid
  · rw [if_pos hid]
    simp only [Function.comp_apply, hid, ne_eq, not_true_eq_false, if_false]
    have hz := (routeCount_eq_zero_iff r c t).mp (hall r hr)
    unfold routeCount
    simp only [List.map_map]
    apply sum_indicator_le_one _ (fun sr => sr.id) srid r.subRoutes (hsub r hr)
    intro sr hsr
    by_cases hsid : sr.id = srid
    · rw [if_pos hsid]
      simp only [Function.comp_apply, hsid, ne_eq, not_true_eq_false, if_false]
      exact hf sr (hz sr hsr)
    · rw [if_neg hsid]
      simp only [Function.comp_apply, ne_eq, hsid, not_false_eq_true, if_true]
      rw [hz sr hsr]
  · rw [if_neg hid]
    simp only [Function.comp_apply, ne_eq, hid, not_false_eq_true, if_true]
    rw [hall r hr]

lemma refCount_update_le (rid srid : Nat) (f : SubRoute → SubRoute) (c t : String)
    (rs : List Route)
    (hf : ∀ sr : SubRoute, srCount c t (f sr) ≤ srCount c t sr) :
    refCount (updateSubRoutes rid srid f rs) c t ≤ refCount rs c t := by
  unfold refCount updateSubRoutes
  rw [List.map_map]
  apply List.sum_le_sum
  intro r _
  simp only [Function.comp_apply]
  by_cases hid : r.id = rid
  · simp only [ne_eq, hid, not_true_eq_false, if_false]
    unfold routeCount
    simp only [List.map_map]
    apply List.sum_le_sum
    intro sr _
    simp only [Function.comp_apply]
    by_cases hsid : sr.id = srid
    · simp only [ne_eq, hsid, not_true_eq_false, if_false]
      exact hf sr
    · simp only [ne_eq, hsid, not_false_eq_true, if_true, le_refl]
  · simp only [ne_eq, hid, not_false_eq_true, if_true, le_refl]

lemma goodIds_map_of_preserve (φ : Route → Route)
    (hid : ∀ r, (φ r).id = r.id)
    (hsub : ∀ r, ((φ r).subRoutes.map (fun sr => sr.id)) = r.subRoutes.map (fun sr => sr.id))
    (rs : List Route) (h : goodIds rs) : goodIds (rs.map φ) := by
  constructor
  · rw [List.map_map]
    have : (rs.map fun r => (φ r).id) = rs.map (fun r => r.id) :=
      List.map_congr_left (fun r _ => hid r)
    simpa [Function.comp] using this ▸ h.1
  · intro r' hr'
    obtain ⟨r, hr, rfl⟩ := List.mem_map.mp hr'
    rw [hsub]
    exact h.2 r hr

lemma goodIds_remove (rs : List Route) (c t : String) (h : goodIds rs) :
    goodIds (removeSectionFromRoutes rs c t) := by
  unfold removeSectionFromRoutes
  apply goodIds_map_of_preserve
    (fun r => { r with subRoutes := r.subRoutes.map (evictSubRoute c t) })
    (fun r => rfl) ?_ rs h
  intro r
  rw [List.map_map]
  exact List.map_congr_left (fun sr _ => rfl)

lemma goodIds_update (rid srid : Nat) (f : SubRoute → SubRoute)
    (hfid : ∀ sr, (f sr).id = sr.id)
    (rs : List Route) (h : goodIds rs) : goodIds (updateSubRoutes rid srid f rs) := by
  apply goodIds_map_of_preserve _ ?_ ?_ rs h
  · intro r
    by_cases hid : r.id = rid
    · simp [hid]
    · simp [hid]
  · intro r
    by_cases hid : r.id = rid
    · simp only [ne_eq, hid, not_true_eq_false, if_false, List.map_map]
      apply List.map_congr_left
      intro sr _
      simp only [Function.comp_apply]
      by_cases hsid : sr.id = srid
      · simp [hsid, hfid]
      · simp [hsid]
    · simp [hid]

lemma srCount_setFrom (c t : String) (ref : SlotRef) (sr : SubRoute) :
    srCount c t { sr with fromSlot := some ref } =
      (if refMatches c t ref then 1 else 0) + (sr.tos.filter (refMatches c t)).length := rfl

lemma srCount_appendTo (c t : String) (ref : SlotRef) (sr : SubRoute) :
    srCount c t { sr with tos := sr.tos ++ [ref] } =
      fromCount c t sr + (sr.tos.filter (refMatches c t)).length
        + (if refMatches c t ref then 1 else 0) := by
  show fromCount c t sr + ((sr.tos ++ [ref]).filter (refMatches c t)).length = _
  rw [List.filter_append, List.length_append]
  cases h : refMatches c t ref with
  | true =>
    simp only [List.filter_cons, List.filter_nil, h, if_true, eq_self_iff_true,
      List.length_cons, List.length_nil]
    omega
  | false =>
    simp only [List.filter_cons, List.filter_nil, h, Bool.false_eq_true, if_false,
      List.length_nil]
    omega

lemma srCount_decompose (c t : String) (sr : SubRoute) :
    srCount c t sr = fromCount c t sr + (sr.tos.filter (refMatches c t)).length := rfl

lemma goodIds_applyOp (rs : List Route) (op : Op) (h : goodIds rs) :
    goodIds (applyOp rs op) := by
  cases op with
  | dropOnFrom rid srid ref =>
    show goodIds (updateSubRoutes rid srid (fun sr => { sr with fromSlot := some ref })
      (removeSectionFromRoutes rs ref.consignmentId ref.type))
    exact goodIds_update rid srid (fun sr => { sr with fromSlot := some ref })
      (fun sr => rfl) _ (goodIds_remove rs ref.consignmentId ref.type h)
  | dropOnTo rid srid ref =>
    show goodIds (updateSubRoutes rid srid (fun sr => { sr with tos := sr.tos ++ [ref] })
      (removeSectionFromRoutes rs ref.consignmentId ref.type))
    exact goodIds_update rid srid (fun sr => { sr with tos := sr.tos ++ [ref] })
      (fun sr => rfl) _ (goodIds_remove rs ref.consignmentId ref.type h)

lemma refMatches_self_pair (c t : String) (ref : SlotRef)
    (hc : ref.consignmentId = c) (ht : ref.type = t) : refMatches c t ref = true := by
  simp [refMatches, hc, ht]

lemma refMatches_ne_pair (c t : String) (ref : SlotRef)
    (hne : ¬(ref.consignmentId = c ∧ ref.type = t)) : refMatches c t ref = false := by
  unfold refMatches
  rcases Decidable.not_and_iff_or_not.mp hne with h | h
  · simp [h]
  · simp [h]

lemma refCount_applyOp_le (rs : List Route) (op : Op)
    (hg : goodIds rs) (hle : ∀ c t, refCount rs c t ≤ 1) (c t : String) :
    refCount (applyOp rs op) c t ≤ 1 := by
  cases op with
  | dropOnFrom rid srid ref =>
    show refCount (updateSubRoutes rid srid _
      (removeSectionFromRoutes rs ref.consignmentId ref.type)) c t ≤ 1
    by_cases hp : ref.consignmentId = c ∧ ref.type = t
    · have hg' := goodIds_remove rs ref.consignmentId ref.type hg
      apply refCount_update_le_one rid srid _ c t _ hg'.1 hg'.2
      · obtain ⟨hc, ht⟩ := hp
        subst hc; subst ht
        exact refCount_remove_self rs ref.consignmentId ref.type
      · intro sr hsr
        rw [srCount_decompose] at hsr
        rw [srCount_setFrom, refMatches_self_pair c t ref hp.1 hp.2, if_pos rfl]
        omega
    · calc refCount (updateSubRoutes rid srid _
            (removeSectionFromRoutes rs ref.consignmentId ref.type)) c t
          ≤ refCount (removeSectionFromRoutes rs ref.consignmentId ref.type) c t := by
            apply refCount_update_le
            intro sr
            rw [srCount_setFrom, refMatches_ne_pair c t ref hp, srCount_decompose]
            simp only [Bool.false_eq_true, if_false]
            omega
        _ ≤ refCount rs c t := refCount_remove_le rs ref.consignmentId ref.type c t
        _ ≤ 1 := hle c t
  | dropOnTo rid srid ref =>
    show refCount (updateSubRoutes rid srid _
      (removeSectionFromRoutes rs ref.consignmentId ref.type)) c t ≤ 1
    by_cases hp : ref.consignmentId = c ∧ ref.type = t
    · have hg' := goodIds_remove rs ref.consignmentId ref.type hg
      apply refCount_update_le_one rid srid _ c t _ hg'.1 hg'.2
      · obtain ⟨hc, ht⟩ := hp
        subst hc; subst ht
        exact refCount_remove_self rs ref.consignmentId ref.type
      · intro sr hsr
        rw [srCount_decompose] at hsr
        rw [srCount_appendTo, refMatches_self_pair c t ref hp.1 hp.2, if_pos rfl]
        omega
    · calc refCount (updateSubRoutes rid srid _
            (removeSectionFromRoutes rs ref.consignmentId ref.type)) c t
          ≤ refCount (removeSectionFromRoutes rs ref.consignmentId ref.type) c t := by
            apply refCount_update_le
            intro sr
            rw [srCount_appendTo, refMatches_ne_pair c t ref hp, srCount_decompose]
            simp only [Bool.false_eq_true, if_false]
            omega
        _ ≤ refCount rs c t := refCount_remove_le rs ref.consignmentId ref.type c t
        _ ≤ 1 := hle c t

lemma goodIds_mkRoutes (n : Nat) : goodIds (mkRoutes n) := by
  constructor
  · unfold mkRoutes
    rw [List.map_map]
    have : ((List.range' 1 n).map fun i => i) = List.range' 1 n := List.map_id _
    have h2 : (List.range' 1 n).map ((fun r : Route => r.id) ∘ (fun i =>
        (⟨i, [⟨1, none, []⟩, ⟨2, none, []⟩]⟩ : Route))) = List.range' 1 n := by
      rw [List.map_congr_left (fun i _ => rfl)]
      exact List.map_id _
    rw [h2]
    exact List.nodup_range' 1 n
  · intro r hr
    obtain ⟨i, _, rfl⟩ := List.mem_map.mp hr
    simp

lemma refCount_mkRoutes (n : Nat) (c t : String) : refCount (mkRoutes n) c t = 0 := by
  unfold refCount
  apply List.sum_eq_zero
  intro x hx
  obtain ⟨r, hr, rfl⟩ := List.mem_map.mp hx
  obtain ⟨i, _, rfl⟩ := List.mem_map.mp hr
  simp [routeCount, srCount, fromCount]

lemma runOps_refCount_le (ops : List Op) :
    ∀ rs : List Route, goodIds rs → (∀ c t, refCount rs c t ≤ 1) →
      ∀ c t, refCount (runOps rs ops) c t ≤ 1 := by
  induction ops with
  | nil =>
    intro rs _ h c t
    simpa [runOps] using h c t
  | cons op ops ih =>
    intro rs hg hle c t
    have : runOps rs (op :: ops) = runOps (applyOp rs op) ops := rfl
    rw [this]
    exact ih (applyOp rs op) (goodIds_applyOp rs op hg)
      (fun c t => refCount_applyOp_le rs op hg hle c t) c t

end App

/-- C2: starting from a freshly created route set, after any sequence of
`placeAsFrom` / `placeAsTo` drops every (consignmentId, type) pair occupies at
most one slot in total, summing its matches over every route's sub-routes'
`from` slot and `tos` list. -/
theorem single_occupancy_invariant (n : Nat) (ops : List App.Op) (c t : String) :
    App.refCount (App.runOps (App.mkRoutes n) ops) c t ≤ 1 :=
  App.runOps_refCount_le ops (App.mkRoutes n) (App.goodIds_mkRoutes n)
    (fun c t => by rw [App.refCount_mkRoutes n c t]; omega) c t

/-! ## C5 and C8: row enrichment and section extraction -/

namespace App

lemma lookupSections_addSections (m : List (String × List Sect)) (k sh : String)
    (new : List Sect) :
    lookupSections (addSections m k new) sh =
      if k = sh then lookupSections m sh ++ new else lookupSections m sh := by
  induction m with
  | nil =>
    by_cases h : k = sh
    · simp [addSections, lookupSections, h]
    · simp [addSections, lookupSections, h]
  | cons p rest ih =>
    obtain ⟨k0, v0⟩ := p
    rw [addSections]
    by_cases h0 : k0 = k
    · subst h0
      rw [if_pos rfl]
      by_cases h : k0 = sh
      · simp [lookupSections, h]
      · simp [lookupSections, h]
    · rw [if_neg h0]
      by_cases h : k0 = sh
      · have hks : ¬ k = sh := fun hk => h0 (hk ▸ h)
        simp [lookupSections, h, hks]
      · simp [lookupSections, h, ih]

lemma buildGo_sections (data : List Row) :
    ∀ (idx : Nat) (sums : List Summary) (secs : List (String × List Sect)) (sh : String),
      lookupSections (buildGo idx data (sums, secs)).2 sh =
        lookupSections secs sh ++ perRowSections idx data sh := by
  induction data with
  | nil =>
    intro idx sums secs sh
    simp [buildGo, perRowSections]
  | cons r rs ih =>
    intro idx sums secs sh
    rw [buildGo]
    simp only [buildStep]
    rw [ih]
    rw [lookupSections_addSections]
    rw [perRowSections]
    by_cases h : r.shipment = sh
    · rw [if_pos h, if_pos h, List.append_assoc]
    · rw [if_neg h, if_neg h, List.nil_append]

lemma addSummary_ids (l : List Summary) (sh cons : String) (amb chi : Int) :
    (addSummary l sh cons amb chi).map (fun s => s.id) =
      if (sh ++ "::" ++ cons) ∈ l.map (fun s => s.id) then l.map (fun s => s.id)
      else l.map (fun s => s.id) ++ [sh ++ "::" ++ cons] := by
  induction l with
  | nil => simp [addSummary]
  | cons s rest ih =>
    rw [addSummary]
    by_cases h : s.id = sh ++ "::" ++ cons
    · simp [h]
    · rw [if_neg h]
      simp only [List.map_cons, ih]
      by_cases hm : (sh ++ "::" ++ cons) ∈ rest.map (fun s => s.id)
      · simp [hm, Ne.symm h]
      · simp [hm, Ne.symm h]

lemma addSummary_key_mem (l : List Summary) (sh cons : String) (amb chi : Int) :
    (sh ++ "::" ++ cons) ∈ (addSummary l sh cons amb chi).map (fun s => s.id) := by
  rw [addSummary_ids]
  by_cases hm : (sh ++ "::" ++ cons) ∈ l.map (fun s => s.id)
  · simp [hm]
  · simp [hm]

lemma addSummary_ids_superset (l : List Summary) (sh cons : String) (amb chi : Int)
    (x : String) (hx : x ∈ l.map (fun s => s.id)) :
    x ∈ (addSummary l sh cons amb chi).map (fun s => s.id) := by
  rw [addSummary_ids]
  by_cases hm : (sh ++ "::" ++ cons) ∈ l.map (fun s => s.id)
  · simpa [hm] using hx
  · simp [hm, hx]

lemma addSummary_nodup (l : List Summary) (sh cons : String) (amb chi : Int)
    (h : (l.map (fun s => s.id)).Nodup) :
    ((addSummary l sh cons amb chi).map (fun s => s.id)).Nodup := by
  rw [addSummary_ids]
  by_cases hm : (sh ++ "::" ++ cons) ∈ l.map (fun s => s.id)
  · simpa [hm] using h
  · rw [if_neg hm]
    rw [List.nodup_append]
    refine ⟨h, List.nodup_singleton _, ?_⟩
    intro a ha hb
    rw [List.mem_singleton] at hb
    subst hb
    exact hm ha

lemma addSummary_nonneg :
    ∀ (l : List Summary) (sh cons : String) (amb chi : Int),
      (∀ s ∈ l, 0 ≤ s.ambientTotes ∧ 0 ≤ s.chillTotes) → 0 ≤ amb → 0 ≤ chi →
      ∀ s ∈ addSummary l sh cons amb chi, 0 ≤ s.ambientTotes ∧ 0 ≤ s.chillTotes
  | [], sh, cons, amb, chi, _, hamb, hchi, s, hs => by
    rw [addSummary] at hs
    rcases List.mem_cons.mp hs with rfl | hs
    · exact ⟨hamb, hchi⟩
    · simp at hs
  | s0 :: rest, sh, cons, amb, chi, hl, hamb, hchi, s, hs => by
    rw [addSummary] at hs
    by_cases h : s0.id = sh ++ "::" ++ cons
    · rw [if_pos h] at hs
      rcases List.mem_cons.mp hs with rfl | hs
      · have h0 := hl s0 (List.mem_cons_self _ _)
        exact ⟨by simp; omega, by simp; omega⟩
      · exact hl s (List.mem_cons_of_mem _ hs)
    · rw [if_neg h] at hs
      rcases List.mem_cons.mp hs with rfl | hs
      · exact hl s (List.mem_cons_self _ _)
      · exact addSummary_nonneg rest sh cons amb chi
          (fun x hx => hl x (List.mem_cons_of_mem _ hx)) hamb hchi s hs

lemma addSummary_coherent :
    ∀ (l : List Summary) (sh cons : String) (amb chi : Int),
      (∀ s ∈ l, s.id = s.shipment ++ "::" ++ s.consignment) →
      ∀ s ∈ addSummary l sh cons amb chi, s.id = s.shipment ++ "::" ++ s.consignment
  | [], sh, cons, amb, chi, _, s, hs => by
    rw [addSummary] at hs
    rcases List.mem_cons.mp hs with rfl | hs
    · rfl
    · simp at hs
  | s0 :: rest, sh, cons, amb, chi, hl, s, hs => by
    rw [addSummary] at hs
    by_cases h : s0.id = sh ++ "::" ++ cons
    · rw [if_pos h] at hs
      rcases List.mem_cons.mp hs with rfl | hs
      · exact hl s0 (List.mem_cons_self _ _)
      · exact hl s (List.mem_cons_of_mem _ hs)
    · rw [if_neg h] at hs
      rcases List.mem_cons.mp hs with rfl | hs
      · exact hl s (List.mem_cons_self _ _)
      · exact addSummary_coherent rest sh cons amb chi
          (fun x hx => hl x (List.mem_cons_of_mem _ hx)) s hs

lemma addSummary_pairs :
    ∀ (l : List Summary) (sh cons : String) (amb chi : Int) (s : Summary),
      s ∈ addSummary l sh cons amb chi →
      (∃ s0 ∈ l, s.shipment = s0.shipment ∧ s.consignment = s0.consignment) ∨
      (s.shipment = sh ∧ s.consignment = cons)
  | [], sh, cons, amb, chi, s, hs => by
    rw [addSummary] at hs
    rcases List.mem_cons.mp hs with rfl | hs
    · exact Or.inr ⟨rfl, rfl⟩
    · simp at hs
  | s0 :: rest, sh, cons, amb, chi, s, hs => by
    rw [addSummary] at hs
    by_cases h : s0.id = sh ++ "::" ++ cons
    · rw [if_pos h] at hs
      rcases List.mem_cons.mp hs with rfl | hs
      · exact Or.inl ⟨s0, List.mem_cons_self _ _, rfl, rfl⟩
      · exact Or.inl ⟨s, List.mem_cons_of_mem _ hs, rfl, rfl⟩
    · rw [if_neg h] at hs
      rcases List.mem_cons.mp hs with rfl | hs
      · exact Or.inl ⟨s, List.mem_cons_self _ _, rfl, rfl⟩
      · rcases addSummary_pairs rest sh cons amb chi s hs with ⟨s1, hs1, he⟩ | hr
        · exact Or.inl ⟨s1, List.mem_cons_of_mem _ hs1, he⟩
        · exact Or.inr hr

lemma buildGo_coherent (data : List Row) :
    ∀ (idx : Nat) (sums : List Summary) (secs : List (String × List Sect)),
      (∀ s ∈ sums, s.id = s.shipment ++ "::" ++ s.consignment) →
      ∀ s ∈ (buildGo idx data (sums, secs)).1,
        s.id = s.shipment ++ "::" ++ s.consignment := by
  induction data with
  | nil =>
    intro idx sums secs h s hs
    exact h s (by simpa [buildGo] using hs)
  | cons r rs ih =>
    intro idx sums secs h s hs
    rw [buildGo] at hs
    simp only [buildStep] at hs
    exact ih (idx + 1) _ _ (addSummary_coherent _ _ _ _ _ h) s hs

lemma buildGo_pairs (data : List Row) :
    ∀ (idx : Nat) (sums : List Summary) (secs : List (String × List Sect)) (s : Summary),
      s ∈ (buildGo idx data (sums, secs)).1 →
      (∃ s0 ∈ sums, s.shipment = s0.shipment ∧ s.consignment = s0.consignment) ∨
      (∃ r ∈ data, s.shipment = r.shipment ∧ s.consignment = r.consignment) := by
  induction data with
  | nil =>
    intro idx sums secs s hs
    exact Or.inl ⟨s, by simpa [buildGo] using hs, rfl, rfl⟩
  | cons r rs ih =>
    intro idx sums secs s hs
    rw [buildGo] at hs
    simp only [buildStep] at hs
    rcases ih (idx + 1) _ _ s hs with ⟨s0, hs0, he⟩ | ⟨r', hr', he⟩
    · rcases addSummary_pairs _ _ _ _ _ s0 hs0 with ⟨s1, hs1, he1⟩ | hr
      · exact Or.inl ⟨s1, hs1, by rw [he.1, he1.1], by rw [he.2, he1.2]⟩
      · exact Or.inr ⟨r, List.mem_cons_self _ _, by rw [he.1, hr.1], by rw [he.2, hr.2]⟩
    · exact Or.inr ⟨r', List.mem_cons_of_mem _ hr', he⟩

lemma filter_length_le_one_of_key {α : Type} (f : α → String) (p : α → Bool) (k : String) :
    ∀ l : List α, (l.map f).Nodup → (∀ x ∈ l, p x = true → f x = k) →
      (l.filter p).length ≤ 1
  | [], _, _ => by simp
  | x :: rest, hnd, hb => by
    rw [List.map_cons] at hnd
    have hnd' := List.nodup_cons.mp hnd
    rw [List.filter_cons]
    by_cases hp : p x = true
    · rw [if_pos hp]
      have hrest : rest.filter p = [] := by
        rw [List.filter_eq_nil_iff]
        intro y hy hpy
        have h1 : f x = k := hb x (List.mem_cons_self _ _) hp
        have h2 : f y = k := hb y (List.mem_cons_of_mem _ hy) hpy
        exact hnd'.1 (by rw [h1, ← h2]; exact List.mem_map_of_mem f hy)
      rw [hrest]
      simp
    · rw [if_neg hp]
      exact filter_length_le_one_of_key f p k rest hnd'.2
        (fun y hy => hb y (List.mem_cons_of_mem _ hy))

lemma buildGo_summaries (data : List Row) :
    ∀ (idx : Nat) (sums : List Summary) (secs : List (String × List Sect)),
      ((sums.map (fun s => s.id)).Nodup →
        ((buildGo idx data (sums, secs)).1.map (fun s => s.id)).Nodup) ∧
      (∀ x ∈ sums.map (fun s => s.id),
        x ∈ (buildGo idx data (sums, secs)).1.map (fun s => s.id)) ∧
      (∀ r ∈ data, (r.shipment ++ "::" ++ r.consignment) ∈
        (buildGo idx data (sums, secs)).1.map (fun s => s.id)) ∧
      ((∀ r ∈ data, 0 ≤ parseTotes r.ambient ∧ 0 ≤ parseTotes r.chilled ∧
          0 ≤ parseTotes r.freezer) →
        (∀ s ∈ sums, 0 ≤ s.ambientTotes ∧ 0 ≤ s.chillTotes) →
        ∀ s ∈ (buildGo idx data (sums, secs)).1, 0 ≤ s.ambientTotes ∧ 0 ≤ s.chillTotes) := by
  induction data with
  | nil =>
    intro idx sums secs
    refine ⟨fun h => by simpa [buildGo] using h, fun x hx => by simpa [buildGo] using hx,
      by simp, fun _ hs s hmem => hs s (by simpa [buildGo] using hmem)⟩
  | cons r rs ih =>
    intro idx sums secs
    rw [buildGo]
    simp only [buildStep]
    obtain ⟨ih1, ih2, ih3, ih4⟩ := ih (idx + 1)
      (addSummary sums r.shipment r.consignment (parseTotes r.ambient)
        (parseTotes r.chilled + parseTotes r.freezer))
      (addSections secs r.shipment (rowSections idx r.consignment (parseTotes r.ambient)
        (parseTotes r.chilled + parseTotes r.freezer)))
    refine ⟨fun h => ih1 (addSummary_nodup _ _ _ _ _ h), ?_, ?_, ?_⟩
    · intro x hx
      exact ih2 x (addSummary_ids_superset _ _ _ _ _ x hx)
    · intro r' hr'
      rcases List.mem_cons.mp hr' with rfl | hr'
      · exact ih2 _ (addSummary_key_mem _ _ _ _ _)
      · exact ih3 r' hr'
    · intro hrows hsums
      apply ih4 (fun x hx => hrows x (List.mem_cons_of_mem _ hx))
      have hr := hrows r (List.mem_cons_self _ _)
      exact addSummary_nonneg sums _ _ _ _ hsums hr.1 (by omega)

end App

/-- C5 (counterexample): on two rows with the same (shipment, consignment,
type) the extraction produces TWO ambient sections for (S1, C1) — totes 10
and 5 — instead of one pre-aggregated section, so the planner's input is NOT
limited to one section per (shipment, consignment, type). -/
theorem sections_not_preaggregated :
    ((App.lookupSections (App.buildConsignmentsAndSections twoRowsSameKey).2 "S1").countP
        (fun s => s.consignment == "C1" && s.type == "ambient")) = 2 ∧
    ¬ (((App.lookupSections (App.buildConsignmentsAndSections twoRowsSameKey).2 "S1").countP
        (fun s => s.consignment == "C1" && s.type == "ambient")) ≤ 1) :=
  ⟨by decide, by decide⟩

/-- C5 (amended): extraction emits sections strictly per row — for every input
and every shipment, the stored section list is exactly the concatenation of
the per-row contributions (one ambient section per row with positive ambient
totes, one chill section per row with positive chill+freezer totes) of the
rows of that shipment, in row order; rows with the same (shipment,
consignment, type) are NOT merged (only the ConsignmentSummary totals
aggregate across rows). -/
theorem sections_are_per_row (data : List Row) (sh : String) :
    App.lookupSections (App.buildConsignmentsAndSections data).2 sh =
      perRowSections 0 data sh := by
  unfold App.buildConsignmentsAndSections
  rw [App.buildGo_sections data 0 [] [] sh]
  simp [App.lookupSections]

/-- C8 (counterexample): two independent failures of the claim.  First, on a
row whose ambient field is `"-5"`, `parseInt` yields −5 (not `NaN`), so the
extracted summary's `ambientTotes` is the negative integer −5.  Second, the
summary map is keyed by the concatenation `shipment ++ "::" ++ consignment`,
so the two DISTINCT pairs ("a::b", "c") and ("a", "b::c") collide on the key
"a::b::c": extraction produces a single summary for both, and the observed
pair ("a", "b::c") has no summary at all — "exactly one summary per distinct
(shipment, consignment) pair" fails. -/
theorem summary_negative_totes :
    ((App.buildConsignmentsAndSections negativeRow).1 = [⟨"S1::C1", "S1", "C1", -5, 0⟩] ∧
      ¬ (∀ s ∈ (App.buildConsignmentsAndSections negativeRow).1,
          0 ≤ s.ambientTotes ∧ 0 ≤ s.chillTotes)) ∧
    ((App.buildConsignmentsAndSections collidingRows).1 =
        [⟨"a::b::c", "a::b", "c", 11, 0⟩] ∧
      ¬ (∃ s ∈ (App.buildConsignmentsAndSections collidingRows).1,
          s.shipment = "a" ∧ s.consignment = "b::c")) :=
  ⟨⟨by decide, by decide⟩, ⟨by decide, by decide⟩⟩

/-- C8 (amended): each summary's id is the concatenation
`shipment ++ "::" ++ consignment` and the ids are duplicate-free, so AT MOST
one summary exists per (shipment, consignment) pair, unconditionally; every
row's key has a summary; exactly one summary per distinct observed
(shipment, consignment) pair additionally requires the keys to separate the
pairs (no two distinct observed pairs may share a concatenated key, as
("a::b", "c") and ("a", "b::c") do); and all totals are non-negative
provided every row's tote fields parse to non-negative values (e.g. fields
following the `a/b` digit convention) — a field parsing to a negative number
makes the totals negative. -/
theorem summaries_unique_and_nonneg (data : List Row) :
    (((App.buildConsignmentsAndSections data).1.map (fun s => s.id)).Nodup) ∧
    (∀ s ∈ (App.buildConsignmentsAndSections data).1,
      s.id = s.shipment ++ "::" ++ s.consignment) ∧
    (∀ sh cons : String,
      ((App.buildConsignmentsAndSections data).1.filter
        (fun s => s.shipment == sh && s.consignment == cons)).length ≤ 1) ∧
    (∀ r ∈ data, (r.shipment ++ "::" ++ r.consignment) ∈
      (App.buildConsignmentsAndSections data).1.map (fun s => s.id)) ∧
    ((∀ r ∈ data, ∀ r' ∈ data,
        r.shipment ++ "::" ++ r.consignment = r'.shipment ++ "::" ++ r'.consignment →
        r.shipment = r'.shipment ∧ r.consignment = r'.consignment) →
      ∀ r ∈ data, ∃ s ∈ (App.buildConsignmentsAndSections data).1,
        s.shipment = r.shipment ∧ s.consignment = r.consignment) ∧
    ((∀ r ∈ data, 0 ≤ parseTotes r.ambient ∧ 0 ≤ parseTotes r.chilled ∧
        0 ≤ parseTotes r.freezer) →
      ∀ s ∈ (App.buildConsignmentsAndSections data).1,
        0 ≤ s.ambientTotes ∧ 0 ≤ s.chillTotes) := by
  obtain ⟨h1, _, h3, h4⟩ := App.buildGo_summaries data 0 [] []
  have hnd := h1 (by simp)
  have hco : ∀ s ∈ (App.buildConsignmentsAndSections data).1,
      s.id = s.shipment ++ "::" ++ s.consignment :=
    App.buildGo_coherent data 0 [] [] (by simp)
  refine ⟨hnd, hco, ?_, h3, ?_, fun hrows => h4 hrows (by simp)⟩
  · intro sh cons
    apply App.filter_length_le_one_of_key (fun s => s.id) _ (sh ++ "::" ++ cons) _ hnd
    intro x hx hpx
    simp only [Bool.and_eq_true, beq_iff_eq] at hpx
    rw [hco x hx, hpx.1, hpx.2]
  · intro hKey r hr
    obtain ⟨s, hsmem, hsid⟩ := List.mem_map.mp (h3 r hr)
    rcases App.buildGo_pairs data 0 [] [] s hsmem with ⟨s0, hs0, _⟩ | ⟨r', hr', hpair⟩
    · simp at hs0
    · have hkeq : r'.shipment ++ "::" ++ r'.consignment =
          r.shipment ++ "::" ++ r.consignment := by
        rw [← hpair.1, ← hpair.2, ← hco s hsmem, hsid]
      have hpr := hKey r' hr' r hr hkeq
      exact ⟨s, hsmem, by rw [hpair.1, hpr.1], by rw [hpair.2, hpr.2]⟩

/-- C8 (witness): on a well-formed single row the amended statement yields
the non-negativity of the concrete extracted summary and the existence of a
summary for the observed (shipment, consignment) pair. -/
theorem summaries_unique_and_nonneg_witness :
    (0 ≤ (⟨"S1::C1", "S1", "C1", 10, 3⟩ : Summary).ambientTotes ∧
      0 ≤ (⟨"S1::C1", "S1", "C1", 10, 3⟩ : Summary).chillTotes) ∧
    (∃ s ∈ (App.buildConsignmentsAndSections witnessRow).1,
      s.shipment = "S1" ∧ s.consignment = "C1") :=
  ⟨(summaries_unique_and_nonneg witnessRow).2.2.2.2.2 (by decide)
      ⟨"S1::C1", "S1", "C1", 10, 3⟩ (by decide),
   (summaries_unique_and_nonneg witnessRow).2.2.2.2.1 (by decide)
      ⟨"S1", "C1", "0/10", "3", ""⟩ (by decide)⟩

/-! ## C3 and C4: the per-shipment planner of part_001 -/

lemma mem_of_getElem?_some {α : Type} {l : List α} {i : Nat} {a : α}
    (h : l[i]? = some a) : a ∈ l := by
  obtain ⟨hlt, rfl⟩ := List.getElem?_eq_some.mp h
  exact List.getElem_mem hlt

lemma pairsOf_set_keep (active : List Sect) (j : Nat) (target t' : Sect)
    (hj : active[j]? = some target)
    (hc : t'.consignment = target.consignment) (ht : t'.type = target.type) :
    pairsOf (active.set j t') = pairsOf active := by
  unfold pairsOf
  rw [List.map_set]
  apply set_of_getElem?
  rw [List.getElem?_map, hj]
  simp [hc, ht]

lemma mem_foldl_append {α β : Type} (f : α → List β) (l : List α) :
    ∀ (acc : List β) (b : β), b ∈ l.foldl (fun acc p => acc ++ f p) acc →
      b ∈ acc ∨ ∃ p ∈ l, b ∈ f p := by
  induction l with
  | nil =>
    intro acc b hb
    exact Or.inl (by simpa using hb)
  | cons x xs ih =>
    intro acc b hb
    rw [List.foldl_cons] at hb
    rcases ih (acc ++ f x) b hb with h | h
    · rcases List.mem_append.mp h with h | h
      · exact Or.inl h
      · exact Or.inr ⟨x, List.mem_cons_self _ _, h⟩
    · obtain ⟨p, hp, hbf⟩ := h
      exact Or.inr ⟨p, List.mem_cons_of_mem _ hp, hbf⟩

namespace PartOne

lemma loopSources_sound (sh : String) :
    ∀ (fuel i : Nat) (active : List Sect) (used : List String) (m : Move),
      m ∈ loopSources sh fuel i active used →
      m.shipment = sh ∧ m.fromConsignment ≠ m.toConsignment ∧
      (m.fromConsignment, m.type) ∈ pairsOf active ∧
      (m.toConsignment, m.type) ∈ pairsOf active := by
  intro fuel
  induction fuel with
  | zero =>
    intro i active used m hm
    simp [loopSources] at hm
  | succ n ih =>
    intro i active used m hm
    rw [loopSources] at hm
    split at hm
    · simp at hm
    · rename_i source hsome
      split at hm
      · exact ih (i + 1) active used m hm
      · rename_i hused
        split at hm
        · exact ih (i + 1) active used m hm
        · rename_i j target hfind
          have hok := List.find?_some hfind
          simp only [targetOk, Bool.and_eq_true, bne_iff_ne, beq_iff_eq,
            decide_eq_true_eq] at hok
          obtain ⟨⟨⟨hji, hcons⟩, hty⟩, hcap⟩ := hok
          have hjget : active[j]? = some target := by
            have := (enumFrom_getElem? active 0 (j, target)
              (List.mem_of_find?_eq_some hfind)).2
            simpa using this
          rcases List.mem_cons.mp hm with rfl | hm
          · have hsrc : source ∈ active := mem_of_getElem?_some hsome
            have htgt : target ∈ active := mem_of_getElem?_some hjget
            refine ⟨rfl, fun hEq => hcons hEq.symm, ?_, ?_⟩
            · exact List.mem_map_of_mem (fun s => (s.consignment, s.type)) hsrc
            · show (target.consignment, source.type) ∈ pairsOf active
              rw [← hty]
              exact List.mem_map_of_mem (fun s => (s.consignment, s.type)) htgt
          · have hset : pairsOf (active.set j { target with totes := target.totes + source.totes })
                = pairsOf active :=
              pairsOf_set_keep active j target _ hjget rfl rfl
            obtain ⟨h1, h2, h3, h4⟩ := ih (i + 1) _ _ m hm
            exact ⟨h1, h2, hset ▸ h3, hset ▸ h4⟩

lemma mem_suggestSectionMoves (byShipment : List (String × List Sect)) (m : Move)
    (hm : m ∈ suggestSectionMoves byShipment) :
    ∃ p ∈ byShipment, m ∈ shipmentMoves p := by
  unfold suggestSectionMoves at hm
  rcases mem_foldl_append shipmentMoves byShipment [] m hm with h | h
  · simp at h
  · exact h

end PartOne

/-- C3 (amended): the per-shipment planner `suggestSectionMoves` (part_001)
never proposes a move whose from-consignment equals its to-consignment, and
it never pairs sections of different types: both endpoints of every move
occur, with the move's single type, among the move's shipment's input
sections.  The current grouped planner of App.jsx enforces neither
restriction: its candidate filter checks only not-a-source / not-yet-used /
below-capacity, so it can propose a move from a consignment's ambient
section into the same consignment's chill section. -/
theorem suggestSectionMoves_from_ne_to (byShipment : List (String × List Sect)) :
    ∀ m ∈ PartOne.suggestSectionMoves byShipment,
      m.fromConsignment ≠ m.toConsignment ∧
      ∃ secs, (m.shipment, secs) ∈ byShipment ∧
        (∃ s ∈ secs, s.consignment = m.fromConsignment ∧ s.type = m.type) ∧
        (∃ s ∈ secs, s.consignment = m.toConsignment ∧ s.type = m.type) := by
  intro m hm
  obtain ⟨p, hp, hms⟩ := PartOne.mem_suggestSectionMoves byShipment m hm
  unfold PartOne.shipmentMoves at hms
  by_cases h : p.2.isEmpty
  · rw [if_pos h] at hms; simp at hms
  · rw [if_neg h] at hms
    obtain ⟨hsh, hne, hfrom, hto⟩ :=
      PartOne.loopSources_sound p.1 p.2.length 0 _ [] m hms
    have hperm : (pairsOf (sortByKey (fun s => s.totes) p.2)).Perm (pairsOf p.2) := by
      unfold pairsOf
      exact (sortByKey_perm (fun s => s.totes) p.2).map _
    refine ⟨hne, p.2, by rw [hsh, Prod.mk.eta]; exact hp, ?_, ?_⟩
    · obtain ⟨s, hs, hpair⟩ := List.mem_map.mp (hperm.mem_iff.mp hfrom)
      obtain ⟨h1, h2⟩ := Prod.mk.injEq .. |>.mp hpair
      exact ⟨s, hs, h1, h2⟩
    · obtain ⟨s, hs, hpair⟩ := List.mem_map.mp (hperm.mem_iff.mp hto)
      obtain ⟨h1, h2⟩ := Prod.mk.injEq .. |>.mp hpair
      exact ⟨s, hs, h1, h2⟩

/-- C3 (witness): on the spec's Scenario A the planner emits the C1 → C2
merge: the endpoints are different consignments and both occur as ambient
sections of shipment S1. -/
theorem suggestSectionMoves_from_ne_to_witness :
    scenarioAMove.fromConsignment ≠ scenarioAMove.toConsignment ∧
    ∃ secs, (scenarioAMove.shipment, secs) ∈ scenarioA ∧
      (∃ s ∈ secs, s.consignment = scenarioAMove.fromConsignment ∧
        s.type = scenarioAMove.type) ∧
      (∃ s ∈ secs, s.consignment = scenarioAMove.toConsignment ∧
        s.type = scenarioAMove.type) :=
  suggestSectionMoves_from_ne_to scenarioA scenarioAMove (by decide)

/-- C4 (amended): the per-shipment planner `suggestSectionMoves` (part_001)
plans each shipment independently: every emitted move's from- and
to-consignments both occur, with the move's type, among the input sections of
the move's own shipment; the current grouped planner of App.jsx pools all
shipments' sections and can merge across shipments. -/
theorem suggestSectionMoves_same_shipment (byShipment : List (String × List Sect)) :
    ∀ m ∈ PartOne.suggestSectionMoves byShipment,
      ∃ secs, (m.shipment, secs) ∈ byShipment ∧
        (∃ s ∈ secs, s.consignment = m.fromConsignment ∧ s.type = m.type) ∧
        (∃ s ∈ secs, s.consignment = m.toConsignment ∧ s.type = m.type) := by
  intro m hm
  obtain ⟨p, hp, hms⟩ := PartOne.mem_suggestSectionMoves byShipment m hm
  unfold PartOne.shipmentMoves at hms
  by_cases h : p.2.isEmpty
  · rw [if_pos h] at hms; simp at hms
  · rw [if_neg h] at hms
    obtain ⟨hsh, _, hfrom, hto⟩ :=
      PartOne.loopSources_sound p.1 p.2.length 0 _ [] m hms
    have hperm : (pairsOf (sortByKey (fun s => s.totes) p.2)).Perm (pairsOf p.2) := by
      unfold pairsOf
      exact (sortByKey_perm (fun s => s.totes) p.2).map _
    refine ⟨p.2, by rw [hsh, Prod.mk.eta]; exact hp, ?_, ?_⟩
    · obtain ⟨s, hs, hpair⟩ := List.mem_map.mp (hperm.mem_iff.mp hfrom)
      obtain ⟨h1, h2⟩ := Prod.mk.injEq .. |>.mp hpair
      exact ⟨s, hs, h1, h2⟩
    · obtain ⟨s, hs, hpair⟩ := List.mem_map.mp (hperm.mem_iff.mp hto)
      obtain ⟨h1, h2⟩ := Prod.mk.injEq .. |>.mp hpair
      exact ⟨s, hs, h1, h2⟩

/-- C4 (witness): on the spec's Scenario A the single emitted move's
endpoints both live in shipment S1's section list. -/
theorem suggestSectionMoves_same_shipment_witness :
    ∃ secs, (scenarioAMove.shipment, secs) ∈ scenarioA ∧
      (∃ s ∈ secs, s.consignment = scenarioAMove.fromConsignment ∧
        s.type = scenarioAMove.type) ∧
      (∃ s ∈ secs, s.consignment = scenarioAMove.toConsignment ∧
        s.type = scenarioAMove.type) :=
  suggestSectionMoves_same_shipment scenarioA scenarioAMove (by decide)

/-! ## C6 and C10: shape of the current grouped planner -/

namespace App

lemma plannerStep_eq (st : List SimSection × List String) (acc : List GroupedSuggestion)
    (src : SimSection) :
    plannerStep ((st, acc)) src = ((processSource st src).1, acc ++ [(processSource st src).2]) :=
  rfl

lemma processSource_snd_fields (st : List SimSection × List String) (src : SimSection) :
    ((processSource st src).2.sourceConsignment, (processSource st src).2.sourceType,
      (processSource st src).2.totalQty) = (src.consignment, src.type, src.totes) := rfl

lemma plannerFold_map (sources : List SimSection) :
    ∀ (st : List SimSection × List String) (acc : List GroupedSuggestion),
      ((sources.foldl plannerStep (st, acc)).2).map
          (fun g => (g.sourceConsignment, g.sourceType, g.totalQty)) =
        acc.map (fun g => (g.sourceConsignment, g.sourceType, g.totalQty)) ++
          sources.map (fun s => (s.consignment, s.type, s.totes)) := by
  induction sources with
  | nil => intro st acc; simp
  | cons src rest ih =>
    intro st acc
    rw [List.foldl_cons, plannerStep_eq, ih]
    rw [List.map_append, List.map_cons, List.map_nil, List.append_assoc]
    rw [List.map_cons]
    rw [List.singleton_append]
    rw [processSource_snd_fields]

lemma plannerFold_mem (sources : List SimSection) :
    ∀ (st : List SimSection × List String) (acc : List GroupedSuggestion)
      (g : GroupedSuggestion), g ∈ (sources.foldl plannerStep (st, acc)).2 →
      g ∈ acc ∨ ∃ src ∈ sources, ∃ st' : List SimSection × List String,
        g = (processSource st' src).2 := by
  induction sources with
  | nil =>
    intro st acc g hg
    exact Or.inl (by simpa using hg)
  | cons src rest ih =>
    intro st acc g hg
    rw [List.foldl_cons, plannerStep_eq] at hg
    rcases ih _ _ g hg with h | h
    · rcases List.mem_append.mp h with h | h
      · exact Or.inl h
      · rw [List.mem_singleton] at h
        exact Or.inr ⟨src, List.mem_cons_self _ _, st, h⟩
    · obtain ⟨src', hsrc', st', hg'⟩ := h
      exact Or.inr ⟨src', List.mem_cons_of_mem _ hsrc', st', hg'⟩

lemma plannerSources_totes_pos (input : List (String × List Sect)) (routesNeeded : Nat)
    (src : SimSection) (hsrc : src ∈ plannerSources input routesNeeded) :
    0 < src.totes := by
  unfold plannerSources at hsrc
  obtain ⟨s0, hs0, rfl⟩ := List.mem_map.mp hsrc
  have h1 : s0 ∈ sortedSections input := List.take_subset _ _ hs0
  have h2 : s0 ∈ allSectionsOf input := mem_of_mem_sortByKey h1
  unfold allSectionsOf at h2
  obtain ⟨sec, hsec, rfl⟩ := List.mem_map.mp h2
  have := (List.mem_filter.mp hsec).2
  simp only [decide_eq_true_eq] at this
  exact this

lemma moveLoop_fst_ne_nil (t : Int) (ht : 0 < t) (sec : List SimSection)
    (used : List String) : (moveLoop (t.toNat + 1) t sec used).1 ≠ [] := by
  rw [moveLoop]
  rw [if_neg (by omega : ¬ t ≤ 0)]
  cases h : candidatesOf sec used with
  | nil => simp
  | cons c0 cs => simp

lemma take_min_self {α : Type} (l : List α) (a : Nat) :
    l.take (min a l.length) = l.take a := by
  by_cases h : a ≤ l.length
  · rw [Nat.min_eq_left h]
  · rw [Nat.min_eq_right (by omega)]
    rw [List.take_length, List.take_of_length_le (by omega)]

end App

/-- C10: when `routesNeeded <= 0` the planner returns no suggestions
regardless of the sections; otherwise it selects the `min(2 * routesNeeded,
number of positive-tote sections)` smallest sections (stable ascending sort
by totes) as sources and emits exactly one grouped suggestion per source, in
order, so the grouped-suggestion count is exactly that minimum. -/
theorem planner_source_selection (input : List (String × List Sect)) (routesNeeded : Nat) :
    (routesNeeded ≤ 0 → App.generateConsolidationSuggestions input routesNeeded = []) ∧
    (0 < routesNeeded →
      (App.generateConsolidationSuggestions input routesNeeded).map
          (fun g => (g.sourceConsignment, g.sourceType, g.totalQty)) =
        ((App.sortedSections input).take (routesNeeded * 2)).map
          (fun s => (s.consignment, s.type, s.totes)) ∧
      (App.generateConsolidationSuggestions input routesNeeded).length =
        min (routesNeeded * 2) (App.allSectionsOf input).length) := by
  constructor
  · intro h
    unfold App.generateConsolidationSuggestions
    rw [if_pos h]
  · intro hpos
    have hguard : ¬ routesNeeded ≤ 0 := by omega
    have hout : App.generateConsolidationSuggestions input routesNeeded =
        ((App.plannerSources input routesNeeded).foldl App.plannerStep
          ((App.markedSections input routesNeeded,
            (App.plannerSources input routesNeeded).map (fun s => s.id)), [])).2 := by
      unfold App.generateConsolidationSuggestions
      rw [if_neg hguard]
    have hmap : (App.generateConsolidationSuggestions input routesNeeded).map
        (fun g => (g.sourceConsignment, g.sourceType, g.totalQty)) =
        (App.plannerSources input routesNeeded).map
          (fun s => (s.consignment, s.type, s.totes)) := by
      rw [hout, App.plannerFold_map]
      rw [List.map_nil, List.nil_append]
    constructor
    · rw [hmap]
      unfold App.plannerSources App.sourceCount
      rw [List.map_map, App.take_min_self]
      exact List.map_congr_left (fun s _ => rfl)
    · have hlen : (App.generateConsolidationSuggestions input routesNeeded).length =
          (App.plannerSources input routesNeeded).length := by
        have := congrArg List.length hmap
        simpa using this
      rw [hlen]
      unfold App.plannerSources App.sourceCount
      rw [List.length_map, List.length_take]
      have hperm : (App.sortedSections input).length = (App.allSectionsOf input).length := by
        unfold App.sortedSections
        exact (sortByKey_perm (fun s => s.totes) (App.allSectionsOf input)).length_eq
      omega

/-- C10 (witness): with routesNeeded 0 the planner output is empty, and with
routesNeeded 1 on a two-section input the grouped count matches the minimum
formula. -/
theorem planner_source_selection_witness :
    App.generateConsolidationSuggestions noTargetInput 0 = [] ∧
    (App.generateConsolidationSuggestions noTargetInput 1).length =
      min (1 * 2) (App.allSectionsOf noTargetInput).length :=
  ⟨(planner_source_selection noTargetInput 0).1 (by decide),
   ((planner_source_selection noTargetInput 1).2 (by decide)).2⟩

/-- C6 (amended): a source with no qualifying target is NOT dropped: the
planner emits exactly one grouped suggestion per selected source (the output
length equals the source count), and every grouped suggestion's move list is
non-empty — when no candidate target exists it records a
"NO AVAILABLE SECTION" move for the outstanding quantity instead of omitting
the entry. -/
theorem planner_every_source_reported (input : List (String × List Sect))
    (routesNeeded : Nat) :
    (App.generateConsolidationSuggestions input routesNeeded).length =
      (if routesNeeded ≤ 0 then 0 else (App.plannerSources input routesNeeded).length) ∧
    ∀ g ∈ App.generateConsolidationSuggestions input routesNeeded, g.moves ≠ [] := by
  by_cases hguard : routesNeeded ≤ 0
  · constructor
    · unfold App.generateConsolidationSuggestions
      rw [if_pos hguard, if_pos hguard]
      rfl
    · intro g hg
      unfold App.generateConsolidationSuggestions at hg
      rw [if_pos hguard] at hg
      simp at hg
  · have hout : App.generateConsolidationSuggestions input routesNeeded =
        ((App.plannerSources input routesNeeded).foldl App.plannerStep
          ((App.markedSections input routesNeeded,
            (App.plannerSources input routesNeeded).map (fun s => s.id)), [])).2 := by
      unfold App.generateConsolidationSuggestions
      rw [if_neg hguard]
    constructor
    · rw [if_neg hguard, hout]
      have hmap := App.plannerFold_map (App.plannerSources input routesNeeded)
        (App.markedSections input routesNeeded,
          (App.plannerSources input routesNeeded).map (fun s => s.id)) []
      have := congrArg List.length hmap
      simpa using this
    · intro g hg
      rw [hout] at hg
      rcases App.plannerFold_mem _ _ _ g hg with h | h
      · simp at h
      · obtain ⟨src, hsrc, st', rfl⟩ := h
        have hpos := App.plannerSources_totes_pos input routesNeeded src hsrc
        exact App.moveLoop_fst_ne_nil src.totes hpos st'.1 st'.2

/-- C6 (witness): on `noTargetInput` (both sections become sources, so no
targets remain) the first grouped suggestion's move list is non-empty. -/
theorem planner_every_source_reported_witness : noTargetGroup.moves ≠ [] :=
  (planner_every_source_reported noTargetInput 1).2 noTargetGroup (by decide)

/-! ## C1: capacity in the part_002 per-type planner -/

namespace PartTwo

lemma foldlMax_mem : ∀ (l : List SSec) (t0 : SSec),
    (l.foldl (fun best cur => if cur.totes > best.totes then cur else best) t0) = t0 ∨
    (l.foldl (fun best cur => if cur.totes > best.totes then cur else best) t0) ∈ l
  | [], t0 => Or.inl rfl
  | x :: xs, t0 => by
    rw [List.foldl_cons]
    by_cases h : x.totes > t0.totes
    · rw [if_pos h]
      rcases foldlMax_mem xs x with h2 | h2
      · rw [h2]
        exact Or.inr (List.mem_cons_self _ _)
      · exact Or.inr (List.mem_cons_of_mem _ h2)
    · rw [if_neg h]
      rcases foldlMax_mem xs t0 with h2 | h2
      · rw [h2]
        exact Or.inl rfl
      · exact Or.inr (List.mem_cons_of_mem _ h2)

lemma reduceMaxTotes_mem (t0 : SSec) (l : List SSec) : reduceMaxTotes t0 l ∈ t0 :: l := by
  unfold reduceMaxTotes
  rcases foldlMax_mem l t0 with h | h
  · rw [h]; exact List.mem_cons_self _ _
  · exact List.mem_cons_of_mem _ h

lemma typeGo_sound (maxTotes : Int) (ty : String) :
    ∀ (lows temp : List SSec) (s : Suggestion), s ∈ typeGo maxTotes ty lows temp →
      s.toSectionTotesAfter = s.toSectionTotesBefore + s.fromSectionTotes ∧
      (s.toSectionTotesAfter ≤ maxTotes ∨ s.toSectionTotesBefore = s.fromSectionTotes)
  | [], temp, s, hs => by simp [typeGo] at hs
  | src :: rest, temp, s, hs => by
    rw [typeGo] at hs
    split at hs
    · exact typeGo_sound maxTotes ty rest temp s hs
    · rename_i t0 ts heq
      rcases List.mem_cons.mp hs with rfl | hs
      · have hbest : reduceMaxTotes t0 ts ∈ temp.filter (targetFilter maxTotes src) := by
          rw [heq]
          exact reduceMaxTotes_mem t0 ts
        have hfilt := (List.mem_filter.mp hbest).2
        simp only [targetFilter, Bool.and_eq_true, Bool.or_eq_true, bne_iff_ne,
          beq_iff_eq, decide_eq_true_eq] at hfilt
        obtain ⟨hcons, hor⟩ := hfilt
        constructor
        · exact Int.add_comm src.totes (reduceMaxTotes t0 ts).totes
        · rcases hor with hle | heqt
          · refine Or.inl ?_
            show src.totes + (reduceMaxTotes t0 ts).totes ≤ maxTotes
            omega
          · exact Or.inr heqt
      · exact typeGo_sound maxTotes ty rest _ s hs

end PartTwo

/-- C1 (amended): every suggestion of `generateTypeSuggestions` satisfies
`toTotesAfter = toTotesBefore + fromTotes`; `toTotesAfter ≤ maxTotes` (40 in
the app) holds UNLESS the chosen target's totes exactly equal the source's —
such equal-size targets are accepted regardless of remaining capacity, so two
same-type sections of totals 30 and 30 in one shipment DO merge, with
toTotesAfter = 60. -/
theorem typeSuggestions_capacity (sections : List PartTwo.SSec) (routesNeeded : Nat)
    (maxTotes : Int) (ty : String) :
    ∀ s ∈ PartTwo.generateTypeSuggestions sections routesNeeded maxTotes ty,
      s.toSectionTotesAfter = s.toSectionTotesBefore + s.fromSectionTotes ∧
      (s.toSectionTotesAfter ≤ maxTotes ∨ s.toSectionTotesBefore = s.fromSectionTotes) := by
  intro s hs
  exact PartTwo.typeGo_sound maxTotes ty _ _ s hs

/-- C1 (witness): on Scenario B's ambient sections the emitted 30-into-30
suggestion satisfies the amended statement through its equal-totes
disjunct. -/
theorem typeSuggestions_capacity_witness :
    scenarioBMove.toSectionTotesAfter =
        scenarioBMove.toSectionTotesBefore + scenarioBMove.fromSectionTotes ∧
      (scenarioBMove.toSectionTotesAfter ≤ 40 ∨
        scenarioBMove.toSectionTotesBefore = scenarioBMove.fromSectionTotes) :=
  typeSuggestions_capacity scenarioBAmbient 1 40 "ambient" scenarioBMove (by decide)

/-! ## Counterexamples on the concrete inputs -/

/-- C1 (counterexample): on Scenario B — two ambient sections of 30 totes
each in one shipment — the part_002 planner DOES suggest a merge, with
`toTotesAfter = 60 > 40`: the target filter accepts a target whose totes
equal the source's regardless of capacity. -/
theorem capacity_violated_on_scenarioB :
    PartTwo.generateConsolidationSuggestions scenarioB 1 = [scenarioBMove] ∧
    ¬ (∀ s ∈ PartTwo.generateConsolidationSuggestions scenarioB 1,
        s.toSectionTotesAfter ≤ 40) :=
  ⟨by decide, by decide⟩

/-- C3 (counterexample): the current App.jsx planner filters candidate
targets only by "not a source / not used / below capacity" — on
`crossTypeInput` it proposes moving consignment C1's AMBIENT section into
C1's own CHILL section: a real move (not a "NO AVAILABLE SECTION" marker)
whose fromConsignment equals its toConsignment and whose types differ. -/
theorem planner_cross_type_same_consignment :
    App.generateConsolidationSuggestions crossTypeInput 1 =
      [⟨"C1", "ambient", 5, [⟨"C1", "chill", 5, some 35⟩]⟩,
       ⟨"C2", "ambient", 6, [⟨"NO AVAILABLE SECTION", "N/A", 6, none⟩]⟩] ∧
    ¬ (∀ g ∈ App.generateConsolidationSuggestions crossTypeInput 1, ∀ mv ∈ g.moves,
        mv.toConsignment = "NO AVAILABLE SECTION" ∨
        (g.sourceConsignment ≠ mv.toConsignment ∧ g.sourceType = mv.toType)) :=
  ⟨by decide, by decide⟩

/-- C4 (counterexample): the current App.jsx planner flattens all shipments
into one candidate pool — on `crossShipmentInput` it moves shipment S1's C1
section into shipment S2's C2 section, although no shipment contains both
endpoints. -/
theorem planner_cross_shipment :
    App.generateConsolidationSuggestions crossShipmentInput 1 =
      [⟨"C1", "ambient", 5, [⟨"C2", "ambient", 5, some 25⟩]⟩,
       ⟨"C3", "ambient", 6, [⟨"NO AVAILABLE SECTION", "N/A", 6, none⟩]⟩] ∧
    ¬ (∀ g ∈ App.generateConsolidationSuggestions crossShipmentInput 1, ∀ mv ∈ g.moves,
        mv.toConsignment = "NO AVAILABLE SECTION" ∨
        ∃ p ∈ crossShipmentInput, containsPair p.2 g.sourceConsignment g.sourceType = true ∧
          containsPair p.2 mv.toConsignment mv.toType = true) :=
  ⟨by decide, by decide⟩

/-- C6 (counterexample): on `noTargetInput` both sources lack any qualifying
target, yet the planner does NOT silently drop them: it emits one grouped
suggestion per source, carrying a "NO AVAILABLE SECTION" move. -/
theorem planner_emits_no_target_entries :
    App.generateConsolidationSuggestions noTargetInput 1 =
      [noTargetGroup,
       ⟨"C2", "ambient", 6, [⟨"NO AVAILABLE SECTION", "N/A", 6, none⟩]⟩] ∧
    App.generateConsolidationSuggestions noTargetInput 1 ≠ [] :=
  ⟨by decide, by decide⟩
